import Mathlib

/-!
Shallow embedding of `Shape_Key_Transfer.py` (Blender add-on "Shape Key Transfer").

The three operators `OBJECT_OT_TransferShapeKey.execute`,
`OBJECT_OT_TransferAllShapeKeys.execute` and `OBJECT_OT_TransferDrivers.execute`
are modelled as pure functions over an explicit mesh-object state.

Modelling decisions:
* 3D coordinates are exact `Int` triples (`Vec3`); shape-key weights (`value`)
  are `Int`.  The Python code performs plain vector arithmetic
  (`basis_co + (source_co - source_basis_co)`), modelled exactly.
* A Blender object is `MeshObject`: a vertex list (position + selection flag),
  an optional shape-key block list (`shape_keys = none` models a mesh whose
  `data.shape_keys` is `None`, i.e. falsy), and the flat list of drivers on the
  object's shape-key animation data (`animation_data = None` is modelled as the
  empty driver list).
* Host primitives follow the external-interface contract of the spec (section 6):
  `shape_key_add(name, from_mix=False)` appends a key block whose per-vertex
  positions are the mesh's current vertex coordinates and whose value is the
  creation default `0`; `key_blocks[name]` resolves to the first block with that
  name; `driver_add(path)` appends a fresh driver for that path.
* Source and target are distinct objects (the operators are used to transfer
  between two meshes); state passing keeps them as two separate values.
-/

structure Vec3 where
  x : Int
  y : Int
  z : Int
deriving DecidableEq, Repr

instance : Add Vec3 := ⟨fun a b => ⟨a.x + b.x, a.y + b.y, a.z + b.z⟩⟩

instance : Sub Vec3 := ⟨fun a b => ⟨a.x - b.x, a.y - b.y, a.z - b.z⟩⟩

def v3zero : Vec3 := ⟨0, 0, 0⟩

/-- A shape-key block (`bpy.types.ShapeKey`): name, per-vertex positions
(`data[i].co`) and influence value (`key.value`). -/
structure KeyBlock where
  name : String
  data : List Vec3
  value : Int
deriving DecidableEq, Repr

/-- A mesh vertex: coordinate and selection flag (`vertex.select`). -/
structure Vertex where
  co : Vec3
  select : Bool
deriving DecidableEq, Repr

/-- A driver variable target (`DriverTarget`): the five fields the code copies. -/
structure DVarTarget where
  id : String
  bone_target : String
  data_path : String
  transform_type : String
  transform_space : String
deriving DecidableEq, Repr

/-- A driver variable (`DriverVariable`): name, type and its target slots. -/
structure DVariable where
  name : String
  vtype : String
  targets : List DVarTarget
deriving DecidableEq, Repr

/-- A driver FCurve together with its driver settings: the data path it
addresses, the driver type, the expression and the variables
(`driver.variables`, named `vars` here). -/
structure FDriver where
  data_path : String
  dtype : String
  expression : String
  vars : List DVariable
deriving DecidableEq, Repr

/-- A mesh object: vertices, optional shape-key set, and the drivers living on
the shape keys' animation data. -/
structure MeshObject where
  vertices : List Vertex
  shape_keys : Option (List KeyBlock)
  drivers : List FDriver
deriving DecidableEq, Repr

inductive TransferMode where
  | FULL
  | NAMES_ONLY
deriving DecidableEq, Repr

/-- The add-on property group fields the operators read. -/
structure TransferProps where
  transfer_mode : TransferMode
  only_selected_vertices : Bool
deriving DecidableEq, Repr

/-- Error taxonomy of the operators' `CANCELLED` reports. -/
inductive TransferError where
  | sourceHasNoChannels
  | channelNotFound (name : String)
  | vertexCountMismatch (sourceCount targetCount : Nat)
  | targetHasNoChannels
  | noMatchingChannels
deriving DecidableEq, Repr

deriving instance DecidableEq for Except

/-- `obj.data.shape_keys.key_blocks`, with a falsy `shape_keys` read as the
empty block list. -/
def keyBlocks (o : MeshObject) : List KeyBlock := o.shape_keys.getD []

/-- `key_blocks[name]`: first block with the given name, if any. -/
def findKey (ks : List KeyBlock) (name : String) : Option KeyBlock :=
  match ks with
  | [] => none
  | k :: rest => if k.name == name then some k else findKey rest name

/-- `name in key_blocks`. -/
def hasKey (ks : List KeyBlock) (name : String) : Bool :=
  (findKey ks name).isSome

/-- In-place mutation through a `key_blocks[name]` reference: rewrite the first
block with the given name. -/
def updateKey (ks : List KeyBlock) (name : String) (f : KeyBlock → KeyBlock) :
    List KeyBlock :=
  match ks with
  | [] => []
  | k :: rest => if k.name == name then f k :: rest else k :: updateKey rest name f

/-- Positions of the named key block (empty when absent). -/
def getData (ks : List KeyBlock) (name : String) : List Vec3 :=
  ((findKey ks name).map KeyBlock.data).getD []

/-- `key_blocks[name].data[i].co`. -/
def getCoL (ks : List KeyBlock) (name : String) (i : Nat) : Vec3 :=
  (getData ks name).getD i v3zero

/-- `key_blocks[name].value` of an object, when the block exists. -/
def getValue (o : MeshObject) (name : String) : Option Int :=
  (findKey (keyBlocks o) name).map KeyBlock.value

/-- `obj.shape_key_add(name=…, from_mix=False)`: append a key block whose
positions are the mesh's current vertex coordinates, with value `0`. -/
def shape_key_add (o : MeshObject) (name : String) : MeshObject :=
  { o with shape_keys := some (keyBlocks o ++ [⟨name, o.vertices.map Vertex.co, 0⟩]) }

/-- Lines 143-144 / 250-252: create a `"Basis"` key if the object has no shape
keys at all. -/
def ensureBasis (o : MeshObject) : MeshObject :=
  match o.shape_keys with
  | none => shape_key_add o "Basis"
  | some _ => o

/-- Lines 146-151 / 260-265: reuse the target key block with this name, else
create a fresh one. -/
def ensureChannel (o : MeshObject) (name : String) : MeshObject :=
  if hasKey (keyBlocks o) name then o else shape_key_add o name

/-- Apply a key-block-list transformation to an object's shape keys. -/
def mapKeys (o : MeshObject) (f : List KeyBlock → List KeyBlock) : MeshObject :=
  { o with shape_keys := o.shape_keys.map f }

/-- `target_key.value = source_key.value` through the name reference. -/
def setKeyValue (o : MeshObject) (name : String) (v : Int) : MeshObject :=
  mapKeys o (fun ks => updateKey ks name (fun k => { k with value := v }))

/-- Lines 160-166 / 269-275: indices of the source object's selected vertices. -/
def selectedIndices (src : MeshObject) : List Nat :=
  ((src.vertices.enum).filter (fun p => p.2.select)).map Prod.fst

/-- One iteration of the vertex loop (lines 169-183 / 277-291): read the target
basis, the source position and the source basis at index `i`, and write
`basis_co + (source_co - source_basis_co)` into the target key's position `i`. -/
def writeVertex (src : MeshObject) (source_key : KeyBlock) (name : String)
    (ks : List KeyBlock) (i : Nat) : List KeyBlock :=
  let basis_co := getCoL ks "Basis" i
  let source_co := source_key.data.getD i v3zero
  let source_basis_co := getCoL (keyBlocks src) "Basis" i
  let delta := source_co - source_basis_co
  updateKey ks name (fun k => { k with data := k.data.set i (basis_co + delta) })

/-- The `FULL`-mode vertex loop: for each `i` below the target vertex count,
skip when `only_selected_vertices` is set and `i` is not selected on the
source, else apply `writeVertex`. -/
def transferData (props : TransferProps) (src : MeshObject) (source_key : KeyBlock)
    (name : String) (n : Nat) (ks : List KeyBlock) : List KeyBlock :=
  (List.range n).foldl
    (fun ks i =>
      if props.only_selected_vertices && !((selectedIndices src).contains i) then ks
      else writeVertex src source_key name ks i)
    ks

/-- `OBJECT_OT_TransferShapeKey.execute` (lines 121-202): single-channel
transfer.  Returns the resulting target state together with the report
outcome. -/
def transferShapeKey (props : TransferProps) (src tgt : MeshObject)
    (shape_key_name : String) : MeshObject × Except TransferError Unit :=
  match src.shape_keys with
  | none => (tgt, .error .sourceHasNoChannels)
  | some _ =>
    match findKey (keyBlocks src) shape_key_name with
    | none => (tgt, .error (.channelNotFound shape_key_name))
    | some source_key =>
      let tgt1 := ensureChannel (ensureBasis tgt) shape_key_name
      match props.transfer_mode with
      | .FULL =>
        if tgt1.vertices.length ≠ src.vertices.length then
          (tgt1, .error (.vertexCountMismatch src.vertices.length tgt1.vertices.length))
        else
          let tgt2 := mapKeys tgt1
            (transferData props src source_key shape_key_name tgt1.vertices.length)
          (setKeyValue tgt2 shape_key_name source_key.value, .ok ())
      | .NAMES_ONLY =>
        (setKeyValue tgt1 shape_key_name source_key.value, .ok ())

/-- The body of the bulk loop (lines 256-300) for one source key block:
skip `"Basis"`, else resolve/create the target channel, transfer positions in
`FULL` mode, copy the value, and count the key as transferred. -/
def transferAllStep (props : TransferProps) (src : MeshObject)
    (acc : MeshObject × Nat) (source_key : KeyBlock) : MeshObject × Nat :=
  if source_key.name == "Basis" then acc
  else
    let t1 := ensureChannel acc.1 source_key.name
    let t2 :=
      match props.transfer_mode with
      | .FULL => mapKeys t1
          (transferData props src source_key source_key.name t1.vertices.length)
      | .NAMES_ONLY => t1
    (setKeyValue t2 source_key.name source_key.value, acc.2 + 1)

/-- `OBJECT_OT_TransferAllShapeKeys.execute` (lines 230-311): bulk transfer.
The `FULL`-mode vertex-count check happens before the basis is ensured and
before any channel is touched. -/
def transferAllShapeKeys (props : TransferProps) (src tgt : MeshObject) :
    MeshObject × Except TransferError Nat :=
  match src.shape_keys with
  | none => (tgt, .error .sourceHasNoChannels)
  | some _ =>
    if props.transfer_mode = .FULL ∧ tgt.vertices.length ≠ src.vertices.length then
      (tgt, .error (.vertexCountMismatch src.vertices.length tgt.vertices.length))
    else
      let r := (keyBlocks src).foldl (transferAllStep props src) (ensureBasis tgt, 0)
      (r.1, .ok r.2)

/-- `f'key_blocks["{name}"].value'`: the data path addressing a shape key's
weight. -/
def weightPath (name : String) : String :=
  "key_blocks[\"" ++ name ++ "\"].value"

/-- Copy one source driver onto the target path (lines 399-437).
`driver_add` creates a fresh driver on the path; the code then copies the type
and the expression, and re-creates each variable, copying its name, type and,
slot by slot, the five target fields.  In the embedding every field write is
accepted and the fresh variable offers the same target slots as the source
(the `try`/`except` guards and the `i < len(target_var.targets)` bound are
exercised only when the host rejects a write or allots fewer slots), so the
variable list is copied as-is. -/
def copyDriver (name : String) (sd : FDriver) : FDriver :=
  { data_path := weightPath name
    dtype := sd.dtype
    expression := sd.expression
    vars := sd.vars }

/-- Lines 358-370: the matching (non-basis) shape-key names, present on both
source and target.  Python builds two `set`s and intersects; the embedding
keeps them as deduplicated name lists in source order. -/
def matchingNames (src tgt : MeshObject) : List String :=
  let sourceNames := (((keyBlocks src).map KeyBlock.name).filter (fun n => n != "Basis")).dedup
  let targetNames := (((keyBlocks tgt).map KeyBlock.name).filter (fun n => n != "Basis")).dedup
  sourceNames.filter (fun n => targetNames.contains n)

/-- Driver transfer for one matching name (lines 379-439): collect the source
drivers on that name's weight path; if none, skip; else drop every target
driver on that path and append a copy of each source driver. -/
def transferDriversStep (src : MeshObject) (acc : MeshObject × Nat)
    (name : String) : MeshObject × Nat :=
  let source_drivers := src.drivers.filter (fun d => d.data_path == weightPath name)
  if source_drivers.isEmpty then acc
  else
    ({ acc.1 with drivers :=
        acc.1.drivers.filter (fun d => d.data_path != weightPath name)
          ++ source_drivers.map (copyDriver name) },
     acc.2 + source_drivers.length)

/-- `OBJECT_OT_TransferDrivers.execute` (lines 339-446). -/
def transferDrivers (src tgt : MeshObject) : MeshObject × Except TransferError Nat :=
  match src.shape_keys with
  | none => (tgt, .error .sourceHasNoChannels)
  | some _ =>
    match tgt.shape_keys with
    | none => (tgt, .error .targetHasNoChannels)
    | some _ =>
      let matching := matchingNames src tgt
      if matching.isEmpty then (tgt, .error .noMatchingChannels)
      else
        let r := matching.foldl (transferDriversStep src) (tgt, 0)
        (r.1, .ok r.2)

/-- Data-model wellformedness (spec section 3): when a shape-key set exists it
contains a `"Basis"` block, and every block has one position per vertex. -/
def wf (o : MeshObject) : Bool :=
  match o.shape_keys with
  | none => true
  | some ks => hasKey ks "Basis" && ks.all (fun k => k.data.length == o.vertices.length)

/-- The `"Basis"` block, when present, is a snapshot of the mesh's current
vertex coordinates (the state the host keeps them in). -/
def basisSynced (o : MeshObject) : Bool :=
  match o.shape_keys with
  | none => true
  | some ks => !hasKey ks "Basis" || (getData ks "Basis" == o.vertices.map Vertex.co)

/-- The vertex loop writes index `i` exactly when this holds: either
`only_selected_vertices` is off, or `i` is selected on the source (the loop's
`continue` fires on the complement). -/
def includedIdx (props : TransferProps) (src : MeshObject) (i : Nat) : Bool :=
  !props.only_selected_vertices || (selectedIndices src).contains i

/-- The value the `FULL` loop writes at index `i`, read off an (initial)
target key-block list `ks`: target basis plus the source delta. -/
def writeVals (src : MeshObject) (source_key : KeyBlock) (ks : List KeyBlock)
    (i : Nat) : Vec3 :=
  getCoL ks "Basis" i + (source_key.data.getD i v3zero - getCoL (keyBlocks src) "Basis" i)

/-- Plain position-array form of the vertex loop: conditionally overwrite the
entries `0..n-1` with values that do not depend on the array. -/
def writeFold (p : Nat → Bool) (v : Nat → Vec3) (n : Nat) (d : List Vec3) : List Vec3 :=
  (List.range n).foldl (fun d i => if p i then d.set i (v i) else d) d

/-! Concrete states used by witnesses and counterexamples. -/

def propsFull : TransferProps := ⟨TransferMode.FULL, false⟩

def propsFullSel : TransferProps := ⟨TransferMode.FULL, true⟩

def propsNames : TransferProps := ⟨TransferMode.NAMES_ONLY, false⟩

/-- Source with two vertices (the first selected), a zero basis and one
channel `"A"` displacing vertex `i` by `(i+1, 0, 0)`, weight `7`. -/
def exSrc : MeshObject :=
  { vertices := [⟨⟨0, 0, 0⟩, true⟩, ⟨⟨0, 0, 0⟩, false⟩]
    shape_keys := some [⟨"Basis", [⟨0, 0, 0⟩, ⟨0, 0, 0⟩], 0⟩,
                        ⟨"A", [⟨1, 0, 0⟩, ⟨2, 0, 0⟩], 7⟩]
    drivers := [] }

/-- Target with two vertices at `(5,5,5)` and no shape keys yet. -/
def exTgt : MeshObject :=
  { vertices := [⟨⟨5, 5, 5⟩, false⟩, ⟨⟨5, 5, 5⟩, false⟩]
    shape_keys := none
    drivers := [] }

/-- Target with two vertices and a pre-existing `"A"` channel. -/
def exTgtPre : MeshObject :=
  { vertices := [⟨⟨5, 5, 5⟩, false⟩, ⟨⟨5, 5, 5⟩, false⟩]
    shape_keys := some [⟨"Basis", [⟨5, 5, 5⟩, ⟨5, 5, 5⟩], 0⟩,
                        ⟨"A", [⟨9, 9, 9⟩, ⟨9, 9, 9⟩], 3⟩]
    drivers := [] }

/-- One-vertex target (vertex-count mismatch against `exSrc`). -/
def exTgtSmall : MeshObject :=
  { vertices := [⟨⟨5, 5, 5⟩, false⟩]
    shape_keys := none
    drivers := [] }

/-- One-vertex source with no vertex selected and a displacing channel. -/
def exSrcNoSel : MeshObject :=
  { vertices := [⟨⟨0, 0, 0⟩, false⟩]
    shape_keys := some [⟨"Basis", [⟨0, 0, 0⟩], 0⟩, ⟨"A", [⟨1, 0, 0⟩], 5⟩]
    drivers := [] }

/-- One-vertex target with a pre-existing, basis-equal `"A"` channel. -/
def exTgtOne : MeshObject :=
  { vertices := [⟨⟨0, 0, 0⟩, false⟩]
    shape_keys := some [⟨"Basis", [⟨0, 0, 0⟩], 0⟩, ⟨"A", [⟨0, 0, 0⟩], 0⟩]
    drivers := [] }

/-- Source whose `"Basis"` block carries weight `1`. -/
def exSrcBasisW : MeshObject :=
  { vertices := [⟨⟨0, 0, 0⟩, false⟩]
    shape_keys := some [⟨"Basis", [⟨0, 0, 0⟩], 1⟩]
    drivers := [] }

/-- Target whose `"Basis"` block carries weight `0`. -/
def exTgtBasisW : MeshObject :=
  { vertices := [⟨⟨0, 0, 0⟩, false⟩]
    shape_keys := some [⟨"Basis", [⟨0, 0, 0⟩], 0⟩]
    drivers := [] }

/-- Source possessing a shape-key set but only the `"Basis"` block. -/
def exSrcOnlyBasis : MeshObject :=
  { vertices := [], shape_keys := some [⟨"Basis", [], 0⟩], drivers := [] }

/-- Target with a non-basis channel `"A"`. -/
def exTgtAB : MeshObject :=
  { vertices := [], shape_keys := some [⟨"Basis", [], 0⟩, ⟨"A", [], 0⟩], drivers := [] }

/-- A scripted-expression driver on a given path. -/
def mkDriver (p e : String) : FDriver :=
  { data_path := p, dtype := "SCRIPTED", expression := e, vars := [] }

/-- Driver-transfer source: channel `"A"` with one driver on its weight path. -/
def exSrcDrv : MeshObject :=
  { vertices := []
    shape_keys := some [⟨"Basis", [], 0⟩, ⟨"A", [], 0⟩]
    drivers := [mkDriver (weightPath "A") "frame/24"] }

/-- Driver-transfer target: an old driver on `"A"` and one unrelated driver. -/
def exTgtDrv : MeshObject :=
  { vertices := []
    shape_keys := some [⟨"Basis", [], 0⟩, ⟨"A", [], 0⟩]
    drivers := [mkDriver (weightPath "A") "old", mkDriver "other" "keepme"] }

/-- Invariant used for bulk idempotence: target state `o` already carries the
final content that processing source key `k` would write — the channel exists,
in FULL mode its positions are a fixed point of the vertex-loop overwrite, and
its weight equals the source weight.  A second bulk run leaves such a state
unchanged. -/
def bulkDone (props : TransferProps) (src : MeshObject) (k : KeyBlock)
    (o : MeshObject) : Prop :=
  hasKey (keyBlocks o) k.name = true
  ∧ (props.transfer_mode = TransferMode.FULL →
      ∀ k0, findKey (keyBlocks o) k.name = some k0 →
        writeFold (includedIdx props src) (writeVals src k (keyBlocks o))
          o.vertices.length k0.data = k0.data)
  ∧ (∀ k0, findKey (keyBlocks o) k.name = some k0 → k0.value = k.value)

/-! Basic facts about key-block lookup and first-occurrence update. -/

theorem findKey_updateKey_ne {ks : List KeyBlock} {n m : String} {f : KeyBlock → KeyBlock}
    (hf : ∀ k, (f k).name = k.name) (h : m ≠ n) :
    findKey (updateKey ks n f) m = findKey ks m := by
  induction ks with
  | nil => rfl
  | cons k rest ih =>
    by_cases hk : k.name = n
    · have h0 : (k.name == n) = true := beq_iff_eq.mpr hk
      have h1 : ((f k).name == m) = false := by
        rw [hf k, hk]; exact beq_eq_false_iff_ne.mpr (fun e => h e.symm)
      have h2 : (k.name == m) = false := by
        rw [hk]; exact beq_eq_false_iff_ne.mpr (fun e => h e.symm)
      rw [updateKey, if_pos h0, findKey, findKey, if_neg (by simp [h1]), if_neg (by simp [h2])]
    · have h0 : (k.name == n) = false := beq_eq_false_iff_ne.mpr hk
      rw [updateKey, if_neg (by simp [h0]), findKey, findKey]
      by_cases hm : k.name = m
      · rw [if_pos (by simp [hm]), if_pos (by simp [hm])]
      · rw [if_neg (by simp [beq_eq_false_iff_ne.mpr hm]),
          if_neg (by simp [beq_eq_false_iff_ne.mpr hm]), ih]

theorem findKey_updateKey_self {ks : List KeyBlock} {n : String} {f : KeyBlock → KeyBlock}
    (hf : ∀ k, (f k).name = k.name) :
    findKey (updateKey ks n f) n = (findKey ks n).map f := by
  induction ks with
  | nil => rfl
  | cons k rest ih =>
    by_cases hk : k.name = n
    · have h0 : (k.name == n) = true := beq_iff_eq.mpr hk
      have h1 : ((f k).name == n) = true := by rw [hf k]; exact h0
      rw [updateKey, if_pos h0, findKey, if_pos h1, findKey, if_pos h0, Option.map_some']
    · have h0 : (k.name == n) = false := beq_eq_false_iff_ne.mpr hk
      rw [updateKey, if_neg (by simp [h0]), findKey, if_neg (by simp [h0]),
        findKey, if_neg (by simp [h0]), ih]

theorem updateKey_updateKey {ks : List KeyBlock} {n : String} {f g : KeyBlock → KeyBlock}
    (hf : ∀ k, (f k).name = k.name) :
    updateKey (updateKey ks n f) n g = updateKey ks n (fun k => g (f k)) := by
  induction ks with
  | nil => rfl
  | cons k rest ih =>
    by_cases hk : k.name = n
    · have h0 : (k.name == n) = true := beq_iff_eq.mpr hk
      have h1 : ((f k).name == n) = true := by rw [hf k]; exact h0
      rw [updateKey, if_pos h0, updateKey, if_pos h1, updateKey, if_pos h0]
    · have h0 : (k.name == n) = false := beq_eq_false_iff_ne.mpr hk
      rw [updateKey, if_neg (by simp [h0]), updateKey, if_neg (by simp [h0]),
        updateKey, if_neg (by simp [h0]), ih]

theorem updateKey_eq_self {ks : List KeyBlock} {n : String} {f : KeyBlock → KeyBlock}
    (h : ∀ k0, findKey ks n = some k0 → f k0 = k0) :
    updateKey ks n f = ks := by
  induction ks with
  | nil => rfl
  | cons k rest ih =>
    by_cases hk : k.name = n
    · have h0 : (k.name == n) = true := beq_iff_eq.mpr hk
      have hfk : f k = k := h k (by rw [findKey, if_pos h0])
      rw [updateKey, if_pos h0, hfk]
    · have h0 : (k.name == n) = false := beq_eq_false_iff_ne.mpr hk
      have : updateKey rest n f = rest := by
        apply ih
        intro k0 hk0
        apply h
        rw [findKey, if_neg (by simp [h0]), hk0]
      rw [updateKey, if_neg (by simp [h0]), this]

theorem updateKey_fix {ks : List KeyBlock} {n : String} {f : KeyBlock → KeyBlock}
    (h : updateKey ks n f = ks) {k0 : KeyBlock} (hk0 : findKey ks n = some k0) :
    f k0 = k0 := by
  induction ks with
  | nil => simp [findKey] at hk0
  | cons k rest ih =>
    by_cases hk : k.name = n
    · have h0 : (k.name == n) = true := beq_iff_eq.mpr hk
      rw [findKey, if_pos h0, Option.some_inj] at hk0
      rw [updateKey, if_pos h0] at h
      have := (List.cons.injEq _ _ _ _).mp h
      rw [← hk0]
      exact this.1
    · have h0 : (k.name == n) = false := beq_eq_false_iff_ne.mpr hk
      rw [findKey, if_neg (by simp [h0])] at hk0
      rw [updateKey, if_neg (by simp [h0])] at h
      have := (List.cons.injEq _ _ _ _).mp h
      exact ih this.2 hk0

theorem findKey_append_of_isSome {ks ks' : List KeyBlock} {n : String}
    (h : (findKey ks n).isSome) :
    findKey (ks ++ ks') n = findKey ks n := by
  induction ks with
  | nil => simp [findKey] at h
  | cons k rest ih =>
    by_cases hk : k.name = n
    · have h0 : (k.name == n) = true := beq_iff_eq.mpr hk
      rw [List.cons_append, findKey, if_pos h0, findKey, if_pos h0]
    · have h0 : (k.name == n) = false := beq_eq_false_iff_ne.mpr hk
      rw [findKey, if_neg (by simp [h0])] at h
      rw [List.cons_append, findKey, if_neg (by simp [h0]), findKey,
        if_neg (by simp [h0]), ih h]

theorem findKey_append_of_none {ks ks' : List KeyBlock} {n : String}
    (h : findKey ks n = none) :
    findKey (ks ++ ks') n = findKey ks' n := by
  induction ks with
  | nil => rfl
  | cons k rest ih =>
    by_cases hk : k.name = n
    · have h0 : (k.name == n) = true := beq_iff_eq.mpr hk
      rw [findKey, if_pos h0] at h
      exact absurd h (by simp)
    · have h0 : (k.name == n) = false := beq_eq_false_iff_ne.mpr hk
      rw [findKey, if_neg (by simp [h0])] at h
      rw [List.cons_append, findKey, if_neg (by simp [h0]), ih h]

theorem hasKey_updateKey {ks : List KeyBlock} {n : String} {f : KeyBlock → KeyBlock}
    (hf : ∀ k, (f k).name = k.name) {m : String} :
    hasKey (updateKey ks n f) m = hasKey ks m := by
  by_cases h : m = n
  · subst h
    rw [hasKey, hasKey, findKey_updateKey_self hf]
    cases findKey ks m <;> rfl
  · rw [hasKey, hasKey, findKey_updateKey_ne hf h]

/-! The vertex loop as a conditional overwrite of the position array. -/

theorem foldSet_length (p : Nat → Bool) (v : Nat → Vec3) (l : List Nat) (d : List Vec3) :
    (l.foldl (fun d i => if p i then d.set i (v i) else d) d).length = d.length := by
  induction l generalizing d with
  | nil => rfl
  | cons a l ih =>
    rw [List.foldl_cons, ih]
    by_cases h : p a <;> simp [h]

theorem foldSet_getElem (p : Nat → Bool) (v : Nat → Vec3) (l : List Nat)
    (hl : l.Nodup) (d : List Vec3) (j : Nat) :
    (l.foldl (fun d i => if p i then d.set i (v i) else d) d)[j]? =
      if j ∈ l ∧ p j = true ∧ j < d.length then some (v j) else d[j]? := by
  induction l generalizing d with
  | nil => simp
  | cons a l ih =>
    rcases List.nodup_cons.mp hl with ⟨ha, hl'⟩
    rw [List.foldl_cons, ih hl']
    have hlen : (if p a = true then d.set a (v a) else d).length = d.length := by
      by_cases h : p a <;> simp [h]
    rw [hlen]
    by_cases hjl : j ∈ l
    · have hja : j ≠ a := fun e => ha (e ▸ hjl)
      have hstep : (if p a = true then d.set a (v a) else d)[j]? = d[j]? := by
        by_cases hpa : p a <;> simp [hpa, List.getElem?_set_ne (Ne.symm hja)]
      rw [hstep]
      simp [hjl]
    · by_cases hja : j = a
      · subst hja
        have hnotin : ¬(j ∈ l ∧ p j = true ∧ j < d.length) := fun h => hjl h.1
        rw [if_neg hnotin]
        by_cases hpa : p j
        · rw [if_pos hpa]
          rw [List.getElem?_set]
          simp only [if_pos rfl]
          by_cases hlt : j < d.length
          · simp [hlt, hpa]
          · rw [if_neg hlt, List.getElem?_eq_none (Nat.le_of_not_lt hlt)]
            simp [hlt]
        · have : (p j) = false := Bool.of_not_eq_true hpa
          simp [this]
      · have hnotin : ¬(j ∈ l ∧ p j = true ∧ j < d.length) := fun h => hjl h.1
        have hnotin2 : ¬(j ∈ a :: l ∧ p j = true ∧ j < d.length) := by
          intro h
          rcases List.mem_cons.mp h.1 with h1 | h1
          · exact hja h1
          · exact hjl h1
        rw [if_neg hnotin, if_neg hnotin2]
        by_cases hpa : p a <;> simp [hpa, List.getElem?_set_ne (fun e => hja e.symm)]

theorem writeFold_length (p : Nat → Bool) (v : Nat → Vec3) (n : Nat) (d : List Vec3) :
    (writeFold p v n d).length = d.length :=
  foldSet_length p v (List.range n) d

theorem writeFold_getElem (p : Nat → Bool) (v : Nat → Vec3) (n : Nat) (d : List Vec3)
    (j : Nat) :
    (writeFold p v n d)[j]? =
      if j < n ∧ p j = true ∧ j < d.length then some (v j) else d[j]? := by
  rw [writeFold, foldSet_getElem p v (List.range n) (List.nodup_range n)]
  simp [List.mem_range]

theorem writeFold_idem (p : Nat → Bool) (v : Nat → Vec3) (n : Nat) (d : List Vec3) :
    writeFold p v n (writeFold p v n d) = writeFold p v n d := by
  apply List.ext_getElem?
  intro j
  rw [writeFold_getElem, writeFold_getElem, writeFold_length]
  by_cases h : j < n ∧ p j = true ∧ j < d.length
  · simp [h]
  · rw [if_neg h, if_neg h]

/-! Collapsing the vertex loop over key-block lists. -/

theorem skip_eq_not_includedIdx (props : TransferProps) (src : MeshObject) (i : Nat) :
    (props.only_selected_vertices && !((selectedIndices src).contains i)) =
      !includedIdx props src i := by
  rw [includedIdx]
  cases props.only_selected_vertices <;> cases (selectedIndices src).contains i <;> rfl

theorem getData_updateKey_ne {ks : List KeyBlock} {n m : String} {f : KeyBlock → KeyBlock}
    (hf : ∀ k, (f k).name = k.name) (h : m ≠ n) :
    getData (updateKey ks n f) m = getData ks m := by
  rw [getData, getData, findKey_updateKey_ne hf h]

theorem getCoL_updateKey_ne {ks : List KeyBlock} {n m : String} {f : KeyBlock → KeyBlock}
    (hf : ∀ k, (f k).name = k.name) (h : m ≠ n) (i : Nat) :
    getCoL (updateKey ks n f) m i = getCoL ks m i := by
  rw [getCoL, getCoL, getData_updateKey_ne hf h]

theorem updateKey_data_data (ks : List KeyBlock) (n : String)
    (df dg : List Vec3 → List Vec3) :
    updateKey (updateKey ks n (fun k => { k with data := df k.data })) n
        (fun k => { k with data := dg k.data })
      = updateKey ks n (fun k => { k with data := dg (df k.data) }) := by
  induction ks with
  | nil => rfl
  | cons k rest ih =>
    by_cases hk : k.name = n
    · have h0 : (k.name == n) = true := beq_iff_eq.mpr hk
      rw [updateKey, if_pos h0, updateKey, if_pos h0, updateKey, if_pos h0]
    · have h0 : (k.name == n) = false := beq_eq_false_iff_ne.mpr hk
      rw [updateKey, if_neg (by simp [h0]), updateKey, if_neg (by simp [h0]),
        updateKey, if_neg (by simp [h0]), ih]

theorem foldWrite_eq_updateKey (props : TransferProps) (src : MeshObject) (sk : KeyBlock)
    {name : String} (hname : name ≠ "Basis") (l : List Nat) (ks : List KeyBlock) :
    l.foldl (fun ks i =>
        if props.only_selected_vertices && !((selectedIndices src).contains i) then ks
        else writeVertex src sk name ks i) ks
      = updateKey ks name (fun k => { k with data := l.foldl (fun d i => if includedIdx props src i then d.set i (writeVals src sk ks i) else d) k.data }) := by
  induction l generalizing ks with
  | nil =>
    rw [List.foldl_nil]
    exact (updateKey_eq_self (fun k0 _ => rfl)).symm
  | cons i l ih =>
    simp only [List.foldl_cons]
    by_cases hskip : (props.only_selected_vertices && !((selectedIndices src).contains i)) = true
    · have hinc : includedIdx props src i = false := by
        have := skip_eq_not_includedIdx props src i
        rw [hskip] at this
        cases hI : includedIdx props src i
        · rfl
        · rw [hI] at this; exact absurd this.symm (by simp)
      rw [if_pos hskip, ih]
      simp only [hinc, Bool.false_eq_true, if_false]
    · have hinc : includedIdx props src i = true := by
        have := skip_eq_not_includedIdx props src i
        cases hI : includedIdx props src i
        · rw [hI] at this; exact absurd this hskip
        · rfl
      rw [if_neg hskip, ih]
      have hw : writeVertex src sk name ks i =
          updateKey ks name (fun k =>
            { k with data := k.data.set i (writeVals src sk ks i) }) := rfl
      have hb : ∀ j, getCoL (writeVertex src sk name ks i) "Basis" j = getCoL ks "Basis" j := by
        intro j
        rw [hw]
        exact @getCoL_updateKey_ne ks name "Basis"
          (fun k => { k with data := k.data.set i (writeVals src sk ks i) })
          (fun k => rfl) (fun e => hname e.symm) j
      have hv : writeVals src sk (writeVertex src sk name ks i) = writeVals src sk ks := by
        funext j
        rw [writeVals, writeVals, hb j]
      rw [hv, hw]
      refine Eq.trans (updateKey_data_data ks name
        (fun d => d.set i (writeVals src sk ks i))
        (fun d => List.foldl (fun d j =>
          if includedIdx props src j then d.set j (writeVals src sk ks j) else d) d l)) ?_
      simp [hinc]

theorem transferData_collapse (props : TransferProps) (src : MeshObject) (sk : KeyBlock)
    {name : String} (hname : name ≠ "Basis") (n : Nat) (ks : List KeyBlock) :
    transferData props src sk name n ks =
      updateKey ks name (fun k =>
        { k with data := writeFold (includedIdx props src) (writeVals src sk ks) n k.data }) :=
  foldWrite_eq_updateKey props src sk hname (List.range n) ks

/-! Consequences of the collapse, and object-level bookkeeping. -/

theorem transferData_findKey_ne {props : TransferProps} {src : MeshObject} {sk : KeyBlock}
    {name m : String} (hname : name ≠ "Basis") (hm : m ≠ name) (n : Nat)
    (ks : List KeyBlock) :
    findKey (transferData props src sk name n ks) m = findKey ks m := by
  rw [transferData_collapse props src sk hname]
  exact findKey_updateKey_ne (fun k => rfl) hm

theorem transferData_findKey_self {props : TransferProps} {src : MeshObject} {sk : KeyBlock}
    {name : String} (hname : name ≠ "Basis") (n : Nat) (ks : List KeyBlock) :
    findKey (transferData props src sk name n ks) name =
      (findKey ks name).map (fun k =>
        { k with data := writeFold (includedIdx props src) (writeVals src sk ks) n k.data }) := by
  rw [transferData_collapse props src sk hname]
  exact findKey_updateKey_self (fun k => rfl)

theorem vertices_shape_key_add (o : MeshObject) (n : String) :
    (shape_key_add o n).vertices = o.vertices := rfl

theorem vertices_ensureBasis (o : MeshObject) :
    (ensureBasis o).vertices = o.vertices := by
  cases h : o.shape_keys <;> simp [ensureBasis, h, shape_key_add]

theorem vertices_ensureChannel (o : MeshObject) (n : String) :
    (ensureChannel o n).vertices = o.vertices := by
  by_cases h : hasKey (keyBlocks o) n <;> simp [ensureChannel, h, shape_key_add]

theorem vertices_mapKeys (o : MeshObject) (f : List KeyBlock → List KeyBlock) :
    (mapKeys o f).vertices = o.vertices := rfl

theorem vertices_setKeyValue (o : MeshObject) (n : String) (v : Int) :
    (setKeyValue o n v).vertices = o.vertices := rfl

theorem drivers_shape_key_add (o : MeshObject) (n : String) :
    (shape_key_add o n).drivers = o.drivers := rfl

theorem drivers_ensureBasis (o : MeshObject) :
    (ensureBasis o).drivers = o.drivers := by
  cases h : o.shape_keys <;> simp [ensureBasis, h, shape_key_add]

theorem drivers_ensureChannel (o : MeshObject) (n : String) :
    (ensureChannel o n).drivers = o.drivers := by
  by_cases h : hasKey (keyBlocks o) n <;> simp [ensureChannel, h, shape_key_add]

theorem drivers_mapKeys (o : MeshObject) (f : List KeyBlock → List KeyBlock) :
    (mapKeys o f).drivers = o.drivers := rfl

theorem drivers_setKeyValue (o : MeshObject) (n : String) (v : Int) :
    (setKeyValue o n v).drivers = o.drivers := rfl

theorem keyBlocks_shape_key_add (o : MeshObject) (n : String) :
    keyBlocks (shape_key_add o n) = keyBlocks o ++ [⟨n, o.vertices.map Vertex.co, 0⟩] := rfl

theorem keyBlocks_of_some {o : MeshObject} {ks : List KeyBlock}
    (h : o.shape_keys = some ks) : keyBlocks o = ks := by
  rw [keyBlocks, h, Option.getD_some]

theorem shape_keys_mapKeys {o : MeshObject} {ks : List KeyBlock}
    (h : o.shape_keys = some ks) (f : List KeyBlock → List KeyBlock) :
    (mapKeys o f).shape_keys = some (f ks) := by
  rw [mapKeys, h, Option.map_some']

theorem ensureBasis_of_some {o : MeshObject} {ks : List KeyBlock}
    (h : o.shape_keys = some ks) : ensureBasis o = o := by
  rw [ensureBasis, h]

theorem ensureBasis_of_none {o : MeshObject} (h : o.shape_keys = none) :
    ensureBasis o = shape_key_add o "Basis" := by
  rw [ensureBasis, h]

theorem ensureChannel_of_has {o : MeshObject} {n : String}
    (h : hasKey (keyBlocks o) n = true) : ensureChannel o n = o := by
  rw [ensureChannel, if_pos h]

theorem ensureChannel_of_not {o : MeshObject} {n : String}
    (h : ¬ hasKey (keyBlocks o) n = true) : ensureChannel o n = shape_key_add o n := by
  rw [ensureChannel, if_neg h]

theorem shape_keys_ensureBasis_isSome (o : MeshObject) :
    (ensureBasis o).shape_keys.isSome := by
  cases h : o.shape_keys <;> simp [ensureBasis, h, shape_key_add]

theorem shape_keys_ensureChannel_isSome {o : MeshObject} (n : String)
    (h : o.shape_keys.isSome) : (ensureChannel o n).shape_keys.isSome := by
  by_cases hk : hasKey (keyBlocks o) n <;> simp [ensureChannel, hk, shape_key_add, h]

theorem hasKey_append_left {ks ks' : List KeyBlock} {n : String}
    (h : hasKey ks n = true) : hasKey (ks ++ ks') n = true := by
  rw [hasKey] at h ⊢
  rw [findKey_append_of_isSome h]
  exact h

theorem hasKey_shape_key_add_self (o : MeshObject) (n : String) :
    hasKey (keyBlocks (shape_key_add o n)) n = true := by
  rw [keyBlocks_shape_key_add, hasKey]
  by_cases h : (findKey (keyBlocks o) n).isSome
  · rw [findKey_append_of_isSome h]; exact h
  · rw [findKey_append_of_none (Option.not_isSome_iff_eq_none.mp h)]
    simp [findKey]

theorem hasKey_ensureChannel_self (o : MeshObject) (n : String) :
    hasKey (keyBlocks (ensureChannel o n)) n = true := by
  by_cases h : hasKey (keyBlocks o) n = true
  · rw [ensureChannel_of_has h]; exact h
  · rw [ensureChannel_of_not h]; exact hasKey_shape_key_add_self o n

/-! Branch characterizations of the single-channel transfer. -/

theorem transferShapeKey_full_ok {props : TransferProps} {src : MeshObject}
    {sks : List KeyBlock} (hsks : src.shape_keys = some sks) {name : String}
    {source_key : KeyBlock} (hfound : findKey (keyBlocks src) name = some source_key)
    (hmode : props.transfer_mode = TransferMode.FULL)
    (tgt : MeshObject) (hcnt : tgt.vertices.length = src.vertices.length) :
    transferShapeKey props src tgt name =
      (setKeyValue (mapKeys (ensureChannel (ensureBasis tgt) name)
          (transferData props src source_key name tgt.vertices.length))
        name source_key.value, Except.ok ()) := by
  simp [transferShapeKey, hsks, hfound, hmode, vertices_ensureChannel,
    vertices_ensureBasis, hcnt]

theorem transferShapeKey_full_mismatch {props : TransferProps} {src : MeshObject}
    {sks : List KeyBlock} (hsks : src.shape_keys = some sks) {name : String}
    {source_key : KeyBlock} (hfound : findKey (keyBlocks src) name = some source_key)
    (hmode : props.transfer_mode = TransferMode.FULL)
    (tgt : MeshObject) (hcnt : tgt.vertices.length ≠ src.vertices.length) :
    transferShapeKey props src tgt name =
      (ensureChannel (ensureBasis tgt) name,
        Except.error (.vertexCountMismatch src.vertices.length tgt.vertices.length)) := by
  simp [transferShapeKey, hsks, hfound, hmode, vertices_ensureChannel,
    vertices_ensureBasis, hcnt]

theorem transferShapeKey_names_ok {props : TransferProps} {src : MeshObject}
    {sks : List KeyBlock} (hsks : src.shape_keys = some sks) {name : String}
    {source_key : KeyBlock} (hfound : findKey (keyBlocks src) name = some source_key)
    (hmode : props.transfer_mode = TransferMode.NAMES_ONLY) (tgt : MeshObject) :
    transferShapeKey props src tgt name =
      (setKeyValue (ensureChannel (ensureBasis tgt) name) name source_key.value,
        Except.ok ()) := by
  simp [transferShapeKey, hsks, hfound, hmode]

/-! Data and value preservation across the embedded mutations. -/

theorem vec3_sub_self (a : Vec3) : a - a = v3zero := by
  show Vec3.mk (a.x - a.x) (a.y - a.y) (a.z - a.z) = v3zero
  simp [v3zero]

theorem vec3_add_sub_cancel (a b c : Vec3) : (a + (b - c)) - a = b - c := by
  show Vec3.mk (a.x + (b.x - c.x) - a.x) (a.y + (b.y - c.y) - a.y)
    (a.z + (b.z - c.z) - a.z) = b - c
  show _ = Vec3.mk (b.x - c.x) (b.y - c.y) (b.z - c.z)
  simp only [Vec3.mk.injEq]
  refine ⟨by omega, by omega, by omega⟩

theorem findKey_mem {ks : List KeyBlock} {n : String} {k : KeyBlock}
    (h : findKey ks n = some k) : k ∈ ks := by
  induction ks with
  | nil => simp [findKey] at h
  | cons a rest ih =>
    rw [findKey] at h
    by_cases ha : (a.name == n) = true
    · rw [if_pos ha, Option.some_inj] at h
      exact h ▸ List.mem_cons_self a rest
    · rw [if_neg ha] at h
      exact List.mem_cons_of_mem a (ih h)

theorem getData_of_findKey {ks : List KeyBlock} {n : String} {k : KeyBlock}
    (h : findKey ks n = some k) : getData ks n = k.data := by
  rw [getData, h, Option.map_some', Option.getD_some]

theorem findKey_updateValue_self (ks : List KeyBlock) (n : String) (v : Int) :
    findKey (updateKey ks n (fun k => { k with value := v })) n
      = (findKey ks n).map (fun k => { k with value := v }) :=
  @findKey_updateKey_self ks n (fun k => { k with value := v }) (fun _ => rfl)

theorem findKey_updateValue_ne (ks : List KeyBlock) {n m : String} (v : Int)
    (hm : m ≠ n) :
    findKey (updateKey ks n (fun k => { k with value := v })) m = findKey ks m :=
  @findKey_updateKey_ne ks n m (fun k => { k with value := v }) (fun _ => rfl) hm

theorem getData_setKeyValue (o : MeshObject) (n : String) (v : Int) (m : String) :
    getData (keyBlocks (setKeyValue o n v)) m = getData (keyBlocks o) m := by
  cases h : o.shape_keys with
  | none => simp [setKeyValue, mapKeys, keyBlocks, h]
  | some ks =>
    rw [setKeyValue, keyBlocks_of_some (shape_keys_mapKeys h _), keyBlocks_of_some h]
    by_cases hm : m = n
    · subst hm
      rw [getData, getData, findKey_updateValue_self]
      cases findKey ks m <;> rfl
    · rw [getData, getData, findKey_updateValue_ne ks v hm]

theorem getValue_setKeyValue_self {o : MeshObject} {n : String} (v : Int)
    (h : hasKey (keyBlocks o) n = true) :
    getValue (setKeyValue o n v) n = some v := by
  cases hsk : o.shape_keys with
  | none =>
    rw [keyBlocks, hsk] at h
    simp [hasKey, findKey] at h
  | some ks =>
    rw [getValue, setKeyValue, keyBlocks_of_some (shape_keys_mapKeys hsk _),
      findKey_updateValue_self]
    rw [keyBlocks_of_some hsk] at h
    rw [hasKey] at h
    obtain ⟨k, hk⟩ := Option.isSome_iff_exists.mp h
    rw [hk]
    rfl

theorem getValue_setKeyValue_ne (o : MeshObject) {n m : String} (v : Int)
    (hm : m ≠ n) : getValue (setKeyValue o n v) m = getValue o m := by
  cases hsk : o.shape_keys with
  | none => simp [getValue, setKeyValue, mapKeys, keyBlocks, hsk]
  | some ks =>
    rw [getValue, getValue, setKeyValue, keyBlocks_of_some (shape_keys_mapKeys hsk _),
      keyBlocks_of_some hsk, findKey_updateValue_ne ks v hm]

theorem findKey_value_transferData {props : TransferProps} {src : MeshObject}
    {sk : KeyBlock} {name : String} (hname : name ≠ "Basis") (n : Nat)
    (ks : List KeyBlock) (m : String) :
    (findKey (transferData props src sk name n ks) m).map KeyBlock.value =
      (findKey ks m).map KeyBlock.value := by
  by_cases hm : m = name
  · subst hm
    rw [transferData_findKey_self hname]
    cases findKey ks m <;> rfl
  · rw [transferData_findKey_ne hname hm]

theorem getData_transferData_basis {props : TransferProps} {src : MeshObject}
    {sk : KeyBlock} {name : String} (hname : name ≠ "Basis") (n : Nat)
    (ks : List KeyBlock) :
    getData (transferData props src sk name n ks) "Basis" = getData ks "Basis" := by
  rw [transferData_collapse props src sk hname]
  exact getData_updateKey_ne (fun k => rfl) (fun e => hname e.symm)

theorem getData_transferData_ne {props : TransferProps} {src : MeshObject}
    {sk : KeyBlock} {name m : String} (hname : name ≠ "Basis") (hm : m ≠ name)
    (n : Nat) (ks : List KeyBlock) :
    getData (transferData props src sk name n ks) m = getData ks m := by
  rw [transferData_collapse props src sk hname]
  exact getData_updateKey_ne (fun k => rfl) hm

theorem findKey_ensure_pre {tgt : MeshObject} {m : String} (name : String)
    (h : hasKey (keyBlocks tgt) m = true) :
    findKey (keyBlocks (ensureChannel (ensureBasis tgt) name)) m
      = findKey (keyBlocks tgt) m := by
  cases hsk : tgt.shape_keys with
  | none =>
    rw [keyBlocks, hsk] at h
    simp [hasKey, findKey] at h
  | some ks =>
    rw [ensureBasis_of_some hsk]
    by_cases hc : hasKey (keyBlocks tgt) name = true
    · rw [ensureChannel_of_has hc]
    · rw [ensureChannel_of_not hc, keyBlocks_shape_key_add,
        findKey_append_of_isSome h]

theorem findKey_ensure_fresh {tgt : MeshObject} {name : String}
    (h : hasKey (keyBlocks tgt) name = false) :
    findKey (keyBlocks (ensureChannel (ensureBasis tgt) name)) name
      = some ⟨name, tgt.vertices.map Vertex.co, 0⟩ := by
  cases hsk : tgt.shape_keys with
  | some ks =>
    rw [ensureBasis_of_some hsk]
    have hno : ¬ hasKey (keyBlocks tgt) name = true := by rw [h]; simp
    rw [ensureChannel_of_not hno, keyBlocks_shape_key_add,
      findKey_append_of_none (Option.not_isSome_iff_eq_none.mp (by rw [← hasKey, h]; simp))]
    rw [findKey, if_pos (beq_self_eq_true name)]
  | none =>
    rw [ensureBasis_of_none hsk]
    by_cases hb : name = "Basis"
    · subst hb
      rw [ensureChannel_of_has (hasKey_shape_key_add_self tgt "Basis")]
      rw [keyBlocks_shape_key_add, keyBlocks, hsk]
      simp [findKey]
    · have hkb : keyBlocks (shape_key_add tgt "Basis")
          = [⟨"Basis", tgt.vertices.map Vertex.co, 0⟩] := by
        rw [keyBlocks_shape_key_add, keyBlocks, hsk]
        rfl
      have hc : hasKey (keyBlocks (shape_key_add tgt "Basis")) name = false := by
        rw [hkb, hasKey, findKey,
          if_neg (by simp [beq_eq_false_iff_ne.mpr (fun e : "Basis" = name => hb e.symm)])]
        rfl
      rw [ensureChannel_of_not (by rw [hc]; simp), keyBlocks_shape_key_add, hkb,
        vertices_shape_key_add]
      rw [findKey_append_of_none (by
        rw [findKey,
          if_neg (by simp [beq_eq_false_iff_ne.mpr (fun e : "Basis" = name => hb e.symm)])]
        rfl)]
      rw [findKey, if_pos (beq_self_eq_true name)]

/-! Wellformedness facts. -/

theorem wf_keyBlocks_length {o : MeshObject} (hwf : wf o = true) {k : KeyBlock}
    (hk : k ∈ keyBlocks o) : k.data.length = o.vertices.length := by
  cases hsk : o.shape_keys with
  | none =>
    rw [keyBlocks, hsk] at hk
    simp at hk
  | some ks =>
    simp only [wf, hsk, Bool.and_eq_true, List.all_eq_true] at hwf
    rw [keyBlocks_of_some hsk] at hk
    exact eq_of_beq (hwf.2 k hk)

theorem wf_hasBasis {o : MeshObject} {ks : List KeyBlock} (hwf : wf o = true)
    (hsk : o.shape_keys = some ks) : hasKey ks "Basis" = true := by
  simp only [wf, hsk, Bool.and_eq_true] at hwf
  exact hwf.1

theorem ensure_findKey_length {tgt : MeshObject} (hwf : wf tgt = true) (name : String)
    {k1 : KeyBlock}
    (h : findKey (keyBlocks (ensureChannel (ensureBasis tgt) name)) name = some k1) :
    k1.data.length = tgt.vertices.length := by
  by_cases hc : hasKey (keyBlocks tgt) name = true
  · rw [findKey_ensure_pre name hc] at h
    exact wf_keyBlocks_length hwf (findKey_mem h)
  · rw [findKey_ensure_fresh (Bool.of_not_eq_true hc), Option.some_inj] at h
    rw [← h]
    exact List.length_map tgt.vertices Vertex.co

/-- Claim C1: after a successful single-channel FULL-mode transfer, every
transferred vertex `i` satisfies
`target.channel[i] - target.basis[i] = source.channel[i] - source.basis[i]`,
regardless of base-pose differences between source and target. -/
theorem C1_relative_transfer_invariant (props : TransferProps)
    (src tgt tgt' : MeshObject) (name : String)
    (hmode : props.transfer_mode = TransferMode.FULL)
    (hwf : wf tgt = true)
    (h : transferShapeKey props src tgt name = (tgt', Except.ok ()))
    (i : Nat) (hinc : includedIdx props src i = true)
    (hi : i < tgt.vertices.length) :
    getCoL (keyBlocks tgt') name i - getCoL (keyBlocks tgt') "Basis" i
      = getCoL (keyBlocks src) name i - getCoL (keyBlocks src) "Basis" i := by
  cases hsks : src.shape_keys with
  | none =>
    simp only [transferShapeKey, hsks] at h
    exact absurd (congrArg Prod.snd h) (by simp)
  | some sks =>
    cases hfound : findKey (keyBlocks src) name with
    | none =>
      simp only [transferShapeKey, hsks, hfound] at h
      exact absurd (congrArg Prod.snd h) (by simp)
    | some source_key =>
      by_cases hcnt : tgt.vertices.length = src.vertices.length
      · rw [transferShapeKey_full_ok hsks hfound hmode tgt hcnt] at h
        have htgt' : tgt' = setKeyValue (mapKeys (ensureChannel (ensureBasis tgt) name)
            (transferData props src source_key name tgt.vertices.length))
            name source_key.value := (congrArg Prod.fst h).symm
        subst htgt'
        by_cases hb : name = "Basis"
        · subst hb
          rw [vec3_sub_self, vec3_sub_self]
        · obtain ⟨ks1, hks1⟩ := Option.isSome_iff_exists.mp
            (shape_keys_ensureChannel_isSome name (shape_keys_ensureBasis_isSome tgt))
        -- the target state after the vertex loop, at key-block-list level
          have hdata : getData (keyBlocks (setKeyValue
              (mapKeys (ensureChannel (ensureBasis tgt) name)
                (transferData props src source_key name tgt.vertices.length))
              name source_key.value)) name
              = getData (transferData props src source_key name tgt.vertices.length ks1)
                  name := by
            rw [getData_setKeyValue, keyBlocks_of_some (shape_keys_mapKeys hks1 _)]
          have hhk : hasKey ks1 name = true := by
            have hh := hasKey_ensureChannel_self (ensureBasis tgt) name
            rw [keyBlocks_of_some hks1] at hh
            exact hh
          obtain ⟨k1, hk1⟩ := Option.isSome_iff_exists.mp hhk
          have hlen : k1.data.length = tgt.vertices.length :=
            ensure_findKey_length hwf name (by rw [keyBlocks_of_some hks1]; exact hk1)
          have hW : getData (transferData props src source_key name
              tgt.vertices.length ks1) name
              = writeFold (includedIdx props src) (writeVals src source_key ks1)
                  tgt.vertices.length k1.data := by
            rw [getData, transferData_findKey_self hb, hk1]
            rfl
          have hco : getCoL (keyBlocks (setKeyValue
              (mapKeys (ensureChannel (ensureBasis tgt) name)
                (transferData props src source_key name tgt.vertices.length))
              name source_key.value)) name i = writeVals src source_key ks1 i := by
            rw [getCoL, hdata, hW, List.getD_eq_getElem?_getD, writeFold_getElem,
              if_pos ⟨hi, hinc, by rw [hlen]; exact hi⟩, Option.getD_some]
          have hbasis : getData (keyBlocks (setKeyValue
              (mapKeys (ensureChannel (ensureBasis tgt) name)
                (transferData props src source_key name tgt.vertices.length))
              name source_key.value)) "Basis" = getData ks1 "Basis" := by
            rw [getData_setKeyValue, keyBlocks_of_some (shape_keys_mapKeys hks1 _),
              getData_transferData_basis hb]
          have hbco : getCoL (keyBlocks (setKeyValue
              (mapKeys (ensureChannel (ensureBasis tgt) name)
                (transferData props src source_key name tgt.vertices.length))
              name source_key.value)) "Basis" i = getCoL ks1 "Basis" i := by
            rw [getCoL, hbasis, getCoL]
          have hsrc : getCoL (keyBlocks src) name i = source_key.data.getD i v3zero := by
            rw [getCoL, getData_of_findKey hfound]
          rw [hco, hbco, writeVals, vec3_add_sub_cancel, hsrc]
      · rw [transferShapeKey_full_mismatch hsks hfound hmode tgt hcnt] at h
        exact absurd (congrArg Prod.snd h) (by simp)

/-- Witness for C1 at a concrete two-vertex transfer. -/
theorem C1_relative_transfer_invariant_witness :
    getCoL (keyBlocks (transferShapeKey propsFull exSrc exTgt "A").1) "A" 0
      - getCoL (keyBlocks (transferShapeKey propsFull exSrc exTgt "A").1) "Basis" 0
      = getCoL (keyBlocks exSrc) "A" 0 - getCoL (keyBlocks exSrc) "Basis" 0 :=
  C1_relative_transfer_invariant propsFull exSrc exTgt
    (transferShapeKey propsFull exSrc exTgt "A").1 "A" rfl (by decide)
    (by decide) 0 (by decide) (by decide)

/-! Basis data after the ensure steps. -/

theorem basisSynced_getData {o : MeshObject} {ks : List KeyBlock} (hwf : wf o = true)
    (hsync : basisSynced o = true) (hsk : o.shape_keys = some ks) :
    getData ks "Basis" = o.vertices.map Vertex.co := by
  simp only [basisSynced, hsk, Bool.or_eq_true] at hsync
  rcases hsync with h1 | h2
  · rw [wf_hasBasis hwf hsk] at h1
    simp at h1
  · exact eq_of_beq h2

theorem getData_ensure_basis {tgt : MeshObject} (hwf : wf tgt = true)
    (hsync : basisSynced tgt = true) (name : String) :
    getData (keyBlocks (ensureChannel (ensureBasis tgt) name)) "Basis"
      = tgt.vertices.map Vertex.co := by
  cases hsk : tgt.shape_keys with
  | none =>
    rw [ensureBasis_of_none hsk]
    have hkb : keyBlocks (shape_key_add tgt "Basis")
        = [⟨"Basis", tgt.vertices.map Vertex.co, 0⟩] := by
      rw [keyBlocks_shape_key_add, keyBlocks, hsk]
      rfl
    by_cases hc : hasKey (keyBlocks (shape_key_add tgt "Basis")) name = true
    · rw [ensureChannel_of_has hc, hkb]
      simp [getData, findKey]
    · rw [ensureChannel_of_not hc, keyBlocks_shape_key_add, hkb]
      rw [getData, findKey_append_of_isSome (by rw [findKey]; simp)]
      rw [findKey]
      simp
  | some ks =>
    rw [ensureBasis_of_some hsk]
    have hb := wf_hasBasis hwf hsk
    rw [hasKey] at hb
    by_cases hc : hasKey (keyBlocks tgt) name = true
    · rw [ensureChannel_of_has hc, keyBlocks_of_some hsk]
      exact basisSynced_getData hwf hsync hsk
    · rw [ensureChannel_of_not hc, keyBlocks_shape_key_add, keyBlocks_of_some hsk]
      rw [getData, findKey_append_of_isSome hb]
      exact basisSynced_getData hwf hsync hsk

/-- Claim C2: a single-channel FULL transfer with mismatched vertex counts
fails with `VertexCountMismatch(sourceCount, targetCount)`, leaves every
pre-existing key block (positions and value) untouched, and leaves the
resolved/created target channel in place — a freshly created channel keeps
basis-equal positions. -/
theorem C2_full_mismatch_state (props : TransferProps) (src tgt : MeshObject)
    (name : String) {sks : List KeyBlock} {source_key : KeyBlock}
    (hsks : src.shape_keys = some sks)
    (hfound : findKey (keyBlocks src) name = some source_key)
    (hmode : props.transfer_mode = TransferMode.FULL)
    (hcnt : tgt.vertices.length ≠ src.vertices.length)
    (hwf : wf tgt = true) (hsync : basisSynced tgt = true) :
    (transferShapeKey props src tgt name).2
        = Except.error (.vertexCountMismatch src.vertices.length tgt.vertices.length)
      ∧ (∀ m, hasKey (keyBlocks tgt) m = true →
          findKey (keyBlocks (transferShapeKey props src tgt name).1) m
            = findKey (keyBlocks tgt) m)
      ∧ hasKey (keyBlocks (transferShapeKey props src tgt name).1) name = true
      ∧ (hasKey (keyBlocks tgt) name = false →
          getData (keyBlocks (transferShapeKey props src tgt name).1) name
            = getData (keyBlocks (transferShapeKey props src tgt name).1) "Basis") := by
  rw [transferShapeKey_full_mismatch hsks hfound hmode tgt hcnt]
  refine ⟨rfl, ?_, ?_, ?_⟩
  · intro m hm
    exact findKey_ensure_pre name hm
  · exact hasKey_ensureChannel_self (ensureBasis tgt) name
  · intro hfr
    rw [getData, findKey_ensure_fresh hfr, Option.map_some', Option.getD_some]
    rw [getData_ensure_basis hwf hsync name]

/-- Witness for C2 at a concrete mismatched transfer. -/
theorem C2_full_mismatch_state_witness :
    (transferShapeKey propsFull exSrc exTgtSmall "A").2
      = Except.error (.vertexCountMismatch 2 1) :=
  (C2_full_mismatch_state propsFull exSrc exTgtSmall "A" rfl
    (by decide : findKey (keyBlocks exSrc) "A" = some ⟨"A", [⟨1,0,0⟩,⟨2,0,0⟩], 7⟩) rfl
    (by decide) (by decide) (by decide)).1

/-- Claim C3: the bulk FULL-mode transfer checks the vertex counts before any
mutation; on mismatch it returns `VertexCountMismatch` and the target state is
exactly the pre-call state (no Basis creation, no channel or weight change). -/
theorem C3_bulk_mismatch_untouched (props : TransferProps) (src tgt : MeshObject)
    {sks : List KeyBlock} (hsks : src.shape_keys = some sks)
    (hmode : props.transfer_mode = TransferMode.FULL)
    (hcnt : tgt.vertices.length ≠ src.vertices.length) :
    transferAllShapeKeys props src tgt
      = (tgt, Except.error
          (.vertexCountMismatch src.vertices.length tgt.vertices.length)) := by
  simp [transferAllShapeKeys, hsks, hmode, hcnt]

/-- Witness for C3 at a concrete mismatched bulk transfer. -/
theorem C3_bulk_mismatch_untouched_witness :
    transferAllShapeKeys propsFull exSrc exTgtSmall
      = (exTgtSmall, Except.error (.vertexCountMismatch 2 1)) :=
  C3_bulk_mismatch_untouched propsFull exSrc exTgtSmall rfl rfl (by decide)

/-- Claim C10: when the single-channel FULL transfer aborts on a vertex-count
mismatch, the source weight is not copied: a pre-existing target channel keeps
its pre-call weight, and a freshly created channel keeps the creation default
`0`. -/
theorem C10_mismatch_weight_not_copied (props : TransferProps) (src tgt : MeshObject)
    (name : String) {sks : List KeyBlock} {source_key : KeyBlock}
    (hsks : src.shape_keys = some sks)
    (hfound : findKey (keyBlocks src) name = some source_key)
    (hmode : props.transfer_mode = TransferMode.FULL)
    (hcnt : tgt.vertices.length ≠ src.vertices.length) :
    (transferShapeKey props src tgt name).2
        = Except.error (.vertexCountMismatch src.vertices.length tgt.vertices.length)
      ∧ (hasKey (keyBlocks tgt) name = true →
          getValue (transferShapeKey props src tgt name).1 name = getValue tgt name)
      ∧ (hasKey (keyBlocks tgt) name = false →
          getValue (transferShapeKey props src tgt name).1 name = some 0) := by
  rw [transferShapeKey_full_mismatch hsks hfound hmode tgt hcnt]
  refine ⟨rfl, ?_, ?_⟩
  · intro hm
    rw [getValue, findKey_ensure_pre name hm, getValue]
  · intro hfr
    rw [getValue, findKey_ensure_fresh hfr, Option.map_some']

/-- Witness for C10: the freshly created channel keeps weight `0`, not the
source's `7`. -/
theorem C10_mismatch_weight_not_copied_witness :
    getValue (transferShapeKey propsFull exSrc exTgtSmall "A").1 "A" = some 0 :=
  (C10_mismatch_weight_not_copied propsFull exSrc exTgtSmall "A" rfl
    (by decide : findKey (keyBlocks exSrc) "A" = some ⟨"A", [⟨1,0,0⟩,⟨2,0,0⟩], 7⟩)
    rfl (by decide)).2.2 (by decide)

/-! Selection-gating helpers. -/

theorem includedIdx_of_mem (props : TransferProps) {src : MeshObject} {i : Nat}
    (h : i ∈ selectedIndices src) : includedIdx props src i = true := by
  rw [includedIdx]
  have hc : (selectedIndices src).contains i = true := List.elem_iff.mpr h
  rw [hc]
  cases props.only_selected_vertices <;> rfl

theorem includedIdx_of_flag_off {props : TransferProps}
    (hoff : props.only_selected_vertices = false) (src : MeshObject) (i : Nat) :
    includedIdx props src i = true := by
  rw [includedIdx, hoff]
  rfl

theorem includedIdx_false_of_not_mem {props : TransferProps} {src : MeshObject} {i : Nat}
    (hflag : props.only_selected_vertices = true) (hnm : i ∉ selectedIndices src) :
    includedIdx props src i = false := by
  rw [includedIdx, hflag]
  cases hE : List.elem i (selectedIndices src) with
  | false =>
    show (!true || List.elem i (selectedIndices src)) = false
    rw [hE]
    rfl
  | true => exact absurd (List.elem_iff.mp hE) hnm

theorem transferShapeKey_ok_inversion {props : TransferProps} {src tgt tgt' : MeshObject}
    {name : String}
    (h : transferShapeKey props src tgt name = (tgt', Except.ok ())) :
    ∃ sks source_key, src.shape_keys = some sks
      ∧ findKey (keyBlocks src) name = some source_key
      ∧ (props.transfer_mode = TransferMode.FULL →
          tgt.vertices.length = src.vertices.length) := by
  cases hsks : src.shape_keys with
  | none =>
    simp only [transferShapeKey, hsks] at h
    exact absurd (congrArg Prod.snd h) (by simp)
  | some sks =>
    cases hfound : findKey (keyBlocks src) name with
    | none =>
      simp only [transferShapeKey, hsks, hfound] at h
      exact absurd (congrArg Prod.snd h) (by simp)
    | some source_key =>
      refine ⟨sks, source_key, rfl, rfl, ?_⟩
      intro hmode
      by_cases hcnt : tgt.vertices.length = src.vertices.length
      · exact hcnt
      · rw [transferShapeKey_full_mismatch hsks hfound hmode tgt hcnt] at h
        exact absurd (congrArg Prod.snd h) (by simp)

/-- Pointwise description of the target channel after a successful FULL-mode
single transfer: written indices carry basis-plus-delta, the rest carry the
post-resolution (pre-loop) value. -/
theorem transferShapeKey_full_pointwise (props : TransferProps) (src tgt : MeshObject)
    (name : String) {sks : List KeyBlock} {source_key : KeyBlock}
    (hsks : src.shape_keys = some sks)
    (hfound : findKey (keyBlocks src) name = some source_key)
    (hmode : props.transfer_mode = TransferMode.FULL)
    (hcnt : tgt.vertices.length = src.vertices.length)
    (hwf : wf tgt = true) (hb : name ≠ "Basis") (i : Nat) :
    (includedIdx props src i = true → i < tgt.vertices.length →
      getCoL (keyBlocks (transferShapeKey props src tgt name).1) name i
        = getCoL (keyBlocks (transferShapeKey props src tgt name).1) "Basis" i
          + (getCoL (keyBlocks src) name i - getCoL (keyBlocks src) "Basis" i))
    ∧ (¬(includedIdx props src i = true ∧ i < tgt.vertices.length) →
      getCoL (keyBlocks (transferShapeKey props src tgt name).1) name i
        = getCoL (keyBlocks (ensureChannel (ensureBasis tgt) name)) name i) := by
  rw [transferShapeKey_full_ok hsks hfound hmode tgt hcnt]
  obtain ⟨ks1, hks1⟩ := Option.isSome_iff_exists.mp
    (shape_keys_ensureChannel_isSome name (shape_keys_ensureBasis_isSome tgt))
  have hhk : hasKey ks1 name = true := by
    have hh := hasKey_ensureChannel_self (ensureBasis tgt) name
    rw [keyBlocks_of_some hks1] at hh
    exact hh
  obtain ⟨k1, hk1⟩ := Option.isSome_iff_exists.mp hhk
  have hlen : k1.data.length = tgt.vertices.length :=
    ensure_findKey_length hwf name (by rw [keyBlocks_of_some hks1]; exact hk1)
  have hdata : getData (keyBlocks (setKeyValue
      (mapKeys (ensureChannel (ensureBasis tgt) name)
        (transferData props src source_key name tgt.vertices.length))
      name source_key.value)) name
      = writeFold (includedIdx props src) (writeVals src source_key ks1)
          tgt.vertices.length k1.data := by
    rw [getData_setKeyValue, keyBlocks_of_some (shape_keys_mapKeys hks1 _),
      getData, transferData_findKey_self hb, hk1]
    rfl
  have hbco : getCoL (keyBlocks (setKeyValue
      (mapKeys (ensureChannel (ensureBasis tgt) name)
        (transferData props src source_key name tgt.vertices.length))
      name source_key.value)) "Basis" i = getCoL ks1 "Basis" i := by
    rw [getCoL, getData_setKeyValue, keyBlocks_of_some (shape_keys_mapKeys hks1 _),
      getData_transferData_basis hb, getCoL]
  refine ⟨?_, ?_⟩
  · intro hinc hi
    rw [getCoL, hdata, List.getD_eq_getElem?_getD, writeFold_getElem,
      if_pos ⟨hi, hinc, by rw [hlen]; exact hi⟩, Option.getD_some, hbco, writeVals]
    have hsrc : getCoL (keyBlocks src) name i = source_key.data.getD i v3zero := by
      rw [getCoL, getData_of_findKey hfound]
    rw [hsrc]
  · intro hnot
    rw [getCoL, hdata, List.getD_eq_getElem?_getD, writeFold_getElem,
      if_neg (fun hcond => hnot ⟨hcond.2.1, hcond.1⟩)]
    rw [getCoL, keyBlocks_of_some hks1, getData_of_findKey hk1,
      List.getD_eq_getElem?_getD]

/-- Claim C5 counterexample: with `only_selected_vertices` enabled and no
source vertex selected, the derived selection is empty, the FULL transfer
succeeds, and yet the delta is applied to no vertex — refuting "when the
selection is empty, deltas are applied to every vertex index". -/
theorem C5_empty_selection_counterexample :
    (transferShapeKey propsFullSel exSrcNoSel exTgtOne "A").2 = Except.ok ()
      ∧ selectedIndices exSrcNoSel = []
      ∧ ¬ (getCoL (keyBlocks (transferShapeKey propsFullSel exSrcNoSel exTgtOne "A").1)
              "A" 0
            = getCoL (keyBlocks (transferShapeKey propsFullSel exSrcNoSel exTgtOne "A").1)
                "Basis" 0
              + (getCoL (keyBlocks exSrcNoSel) "A" 0
                  - getCoL (keyBlocks exSrcNoSel) "Basis" 0)) := by
  decide

/-- Claim C5 (amended): selection gating in FULL mode is keyed to the
`only_selected_vertices` flag, not to emptiness of the derived selection alone:
with the flag off the derived selection is empty and every index `0..N-1`
receives the delta; selected indices always receive the delta; with the flag
on, a pre-existing channel keeps its pre-call value at every unselected index —
in particular, with the flag on and an empty derived selection no vertex
changes at all. -/
theorem C5_selection_gating_amended (props : TransferProps)
    (src tgt tgt' : MeshObject) (name : String)
    (hmode : props.transfer_mode = TransferMode.FULL)
    (hwf : wf tgt = true) (hb : name ≠ "Basis")
    (h : transferShapeKey props src tgt name = (tgt', Except.ok ())) :
    (props.only_selected_vertices = false → ∀ i, i < tgt.vertices.length →
      getCoL (keyBlocks tgt') name i
        = getCoL (keyBlocks tgt') "Basis" i
          + (getCoL (keyBlocks src) name i - getCoL (keyBlocks src) "Basis" i))
    ∧ (∀ i, i ∈ selectedIndices src → i < tgt.vertices.length →
      getCoL (keyBlocks tgt') name i
        = getCoL (keyBlocks tgt') "Basis" i
          + (getCoL (keyBlocks src) name i - getCoL (keyBlocks src) "Basis" i))
    ∧ (hasKey (keyBlocks tgt) name = true → props.only_selected_vertices = true →
      ∀ i, i ∉ selectedIndices src →
        getCoL (keyBlocks tgt') name i = getCoL (keyBlocks tgt) name i)
    ∧ (hasKey (keyBlocks tgt) name = true → props.only_selected_vertices = true →
      selectedIndices src = [] →
      ∀ i, getCoL (keyBlocks tgt') name i = getCoL (keyBlocks tgt) name i) := by
  obtain ⟨sks, source_key, hsks, hfound, hcnt'⟩ := transferShapeKey_ok_inversion h
  have hcnt := hcnt' hmode
  have hfst : (transferShapeKey props src tgt name).1 = tgt' := congrArg Prod.fst h
  have hp := fun i => transferShapeKey_full_pointwise props src tgt name hsks hfound
    hmode hcnt hwf hb i
  rw [hfst] at hp
  have hpre : hasKey (keyBlocks tgt) name = true →
      ∀ i, getCoL (keyBlocks (ensureChannel (ensureBasis tgt) name)) name i
        = getCoL (keyBlocks tgt) name i := by
    intro hk i
    rw [getCoL, getCoL, getData, getData, findKey_ensure_pre name hk]
  have h3 : hasKey (keyBlocks tgt) name = true → props.only_selected_vertices = true →
      ∀ i, i ∉ selectedIndices src →
        getCoL (keyBlocks tgt') name i = getCoL (keyBlocks tgt) name i := by
    intro hk hflag i hnm
    have hincf := includedIdx_false_of_not_mem hflag hnm
    have hres := (hp i).2 (fun hc => by rw [hincf] at hc; exact absurd hc.1 (by simp))
    rw [hres]
    exact hpre hk i
  refine ⟨?_, ?_, h3, ?_⟩
  · intro hoff i hi
    exact (hp i).1 (includedIdx_of_flag_off hoff src i) hi
  · intro i hm hi
    exact (hp i).1 (includedIdx_of_mem props hm) hi
  · intro hk hflag hempty i
    refine h3 hk hflag i ?_
    rw [hempty]
    exact List.not_mem_nil i

/-- Witness for the amended C5: with the flag on and vertex 0 selected, the
delta lands on index 0. -/
theorem C5_selection_gating_amended_witness :
    getCoL (keyBlocks (transferShapeKey propsFullSel exSrc exTgtPre "A").1) "A" 0
      = getCoL (keyBlocks (transferShapeKey propsFullSel exSrc exTgtPre "A").1) "Basis" 0
        + (getCoL (keyBlocks exSrc) "A" 0 - getCoL (keyBlocks exSrc) "Basis" 0) :=
  (C5_selection_gating_amended propsFullSel exSrc exTgtPre
      (transferShapeKey propsFullSel exSrc exTgtPre "A").1 "A" rfl (by decide)
      (by decide) (by decide)).2.1 0 (by decide) (by decide)

theorem hasKey_setKeyValue (o : MeshObject) (n : String) (v : Int) (m : String) :
    hasKey (keyBlocks (setKeyValue o n v)) m = hasKey (keyBlocks o) m := by
  cases hsk : o.shape_keys with
  | none => simp [setKeyValue, mapKeys, keyBlocks, hsk]
  | some ks =>
    rw [setKeyValue, keyBlocks_of_some (shape_keys_mapKeys hsk _), keyBlocks_of_some hsk]
    exact @hasKey_updateKey ks n (fun k => { k with value := v }) (fun _ => rfl) m

/-- Claim C6: in NAMES_ONLY mode a vertex-count mismatch does not fail — the
transfer succeeds with no error, the target carries the named channel (a
freshly created one with basis-equal, untouched positions), and the source
channel's weight is copied onto the target channel. -/
theorem C6_names_only_tolerates_mismatch (props : TransferProps)
    (src tgt : MeshObject) (name : String) {sks : List KeyBlock}
    {source_key : KeyBlock} (hsks : src.shape_keys = some sks)
    (hfound : findKey (keyBlocks src) name = some source_key)
    (hmode : props.transfer_mode = TransferMode.NAMES_ONLY)
    (_hcnt : tgt.vertices.length ≠ src.vertices.length)
    (hwf : wf tgt = true) (hsync : basisSynced tgt = true) :
    (transferShapeKey props src tgt name).2 = Except.ok ()
      ∧ hasKey (keyBlocks (transferShapeKey props src tgt name).1) name = true
      ∧ getValue (transferShapeKey props src tgt name).1 name = some source_key.value
      ∧ (hasKey (keyBlocks tgt) name = false →
          getData (keyBlocks (transferShapeKey props src tgt name).1) name
            = getData (keyBlocks (transferShapeKey props src tgt name).1) "Basis") := by
  rw [transferShapeKey_names_ok hsks hfound hmode tgt]
  refine ⟨rfl, ?_, ?_, ?_⟩
  · rw [hasKey_setKeyValue]
    exact hasKey_ensureChannel_self (ensureBasis tgt) name
  · exact getValue_setKeyValue_self source_key.value
      (hasKey_ensureChannel_self (ensureBasis tgt) name)
  · intro hfr
    rw [getData_setKeyValue, getData_setKeyValue, getData, findKey_ensure_fresh hfr,
      Option.map_some', Option.getD_some, getData_ensure_basis hwf hsync name]

/-- Witness for C6: names-only transfer between meshes with 2 and 1 vertices
succeeds and copies the weight `7`. -/
theorem C6_names_only_tolerates_mismatch_witness :
    (transferShapeKey propsNames exSrc exTgtSmall "A").2 = Except.ok ()
      ∧ getValue (transferShapeKey propsNames exSrc exTgtSmall "A").1 "A" = some 7 :=
  have hc := C6_names_only_tolerates_mismatch propsNames exSrc exTgtSmall "A" rfl
    (by decide : findKey (keyBlocks exSrc) "A" = some ⟨"A", [⟨1,0,0⟩,⟨2,0,0⟩], 7⟩)
    rfl (by decide) (by decide) (by decide)
  ⟨hc.1, hc.2.2.1⟩

/-- Claim C9 counterexample: a source whose shape-key set contains only
`"Basis"` has no non-basis channel, yet `transferDrivers` against a target
with a non-basis channel reports `NoMatchingChannels` — not a no-shape-keys
error. -/
theorem C9_only_basis_counterexample :
    ((keyBlocks exSrcOnlyBasis).filter (fun k => k.name != "Basis")) = []
      ∧ (transferDrivers exSrcOnlyBasis exTgtAB).2
          = Except.error TransferError.noMatchingChannels
      ∧ (transferDrivers exSrcOnlyBasis exTgtAB).2
          ≠ Except.error TransferError.sourceHasNoChannels
      ∧ (transferDrivers exSrcOnlyBasis exTgtAB).2
          ≠ Except.error TransferError.targetHasNoChannels := by
  decide

/-- Claim C9 (amended): the no-shape-keys errors fire exactly when a side's
shape-key set is absent altogether — a side possessing only a `"Basis"` block
passes those checks — and `NoMatchingChannels` fires exactly when both sides
have shape-key sets but the non-basis name sets do not intersect. -/
theorem C9_driver_error_taxonomy_amended (src tgt : MeshObject) :
    ((transferDrivers src tgt).2 = Except.error TransferError.sourceHasNoChannels
        ↔ src.shape_keys = none)
      ∧ ((transferDrivers src tgt).2 = Except.error TransferError.targetHasNoChannels
        ↔ src.shape_keys.isSome = true ∧ tgt.shape_keys = none)
      ∧ ((transferDrivers src tgt).2 = Except.error TransferError.noMatchingChannels
        ↔ src.shape_keys.isSome = true ∧ tgt.shape_keys.isSome = true
            ∧ matchingNames src tgt = []) := by
  cases hs : src.shape_keys with
  | none => simp [transferDrivers, hs]
  | some sks =>
    cases ht : tgt.shape_keys with
    | none => simp [transferDrivers, hs, ht]
    | some tks =>
      by_cases hm : (matchingNames src tgt).isEmpty = true
      · have hml : matchingNames src tgt = [] := List.isEmpty_iff.mp hm
        simp [transferDrivers, hs, ht, hm, hml]
      · have hml : matchingNames src tgt ≠ [] := by
          intro e
          exact hm (by rw [e]; rfl)
        simp [transferDrivers, hs, ht, hm, hml]

/-! Driver-transfer machinery. -/

theorem weightPath_inj {a b : String} (h : weightPath a = weightPath b) : a = b := by
  have hd := congrArg String.data h
  rw [weightPath, weightPath, String.data_append, String.data_append,
    String.data_append, String.data_append] at hd
  exact String.ext (List.append_cancel_left (List.append_cancel_right hd))

theorem transferDriversStep_drivers (src : MeshObject) (acc : MeshObject × Nat)
    (n : String) :
    (transferDriversStep src acc n).1.drivers
      = if (src.drivers.filter (fun d => d.data_path == weightPath n)).isEmpty = true
        then acc.1.drivers
        else acc.1.drivers.filter (fun d => d.data_path != weightPath n)
          ++ (src.drivers.filter (fun d => d.data_path == weightPath n)).map
              (copyDriver n) := by
  by_cases he : (src.drivers.filter (fun d => d.data_path == weightPath n)).isEmpty = true <;>
    simp [transferDriversStep, he]

theorem transferDriversStep_shape_keys (src : MeshObject) (acc : MeshObject × Nat)
    (n : String) :
    (transferDriversStep src acc n).1.shape_keys = acc.1.shape_keys := by
  by_cases he : (src.drivers.filter (fun d => d.data_path == weightPath n)).isEmpty = true <;>
    simp [transferDriversStep, he]

theorem fold_drivers_shape_keys (src : MeshObject) (l : List String) :
    ∀ acc : MeshObject × Nat,
      (l.foldl (transferDriversStep src) acc).1.shape_keys = acc.1.shape_keys := by
  induction l with
  | nil => intro acc; rfl
  | cons n l' ih =>
    intro acc
    rw [List.foldl_cons, ih, transferDriversStep_shape_keys]

theorem fold_drivers_preserve {src : MeshObject} {name : String} (l : List String)
    (hn : name ∉ l) :
    ∀ acc : MeshObject × Nat,
      (l.foldl (transferDriversStep src) acc).1.drivers.filter
          (fun d => d.data_path == weightPath name)
        = acc.1.drivers.filter (fun d => d.data_path == weightPath name) := by
  induction l with
  | nil => intro acc; rfl
  | cons n l' ih =>
    intro acc
    have hnn : name ≠ n := fun e => hn (e ▸ List.mem_cons_self n l')
    have hne : name ∉ l' := fun hm => hn (List.mem_cons_of_mem n hm)
    rw [List.foldl_cons, ih hne, transferDriversStep_drivers]
    by_cases he : (src.drivers.filter (fun d => d.data_path == weightPath n)).isEmpty = true
    · rw [if_pos he]
    · rw [if_neg he, List.filter_append]
      have h2 : ((src.drivers.filter (fun d => d.data_path == weightPath n)).map
            (copyDriver n)).filter (fun d => d.data_path == weightPath name) = [] := by
        rw [List.filter_eq_nil_iff]
        intro d hd
        obtain ⟨sd, _, hsd⟩ := List.mem_map.mp hd
        rw [← hsd]
        intro hb
        exact hnn (weightPath_inj (eq_of_beq hb)).symm
      rw [h2, List.append_nil, List.filter_filter]
      apply List.filter_congr
      intro d _
      cases hb : (d.data_path == weightPath name) with
      | false => rfl
      | true =>
        have : (d.data_path != weightPath n) = true := by
          rw [bne_iff_ne]
          rw [eq_of_beq hb]
          exact fun e => hnn (weightPath_inj e)
        rw [this]
        rfl

theorem fold_drivers_replaced (src : MeshObject) :
    ∀ (l : List String), l.Nodup → ∀ acc : MeshObject × Nat, ∀ name ∈ l,
      src.drivers.filter (fun d => d.data_path == weightPath name) ≠ [] →
      (l.foldl (transferDriversStep src) acc).1.drivers.filter
          (fun d => d.data_path == weightPath name)
        = (src.drivers.filter (fun d => d.data_path == weightPath name)).map
            (copyDriver name) := by
  intro l
  induction l with
  | nil =>
    intro _ acc name hmem
    exact absurd hmem (List.not_mem_nil name)
  | cons n l' ih =>
    intro hnd acc name hmem hne
    rcases List.nodup_cons.mp hnd with ⟨hn, hnd'⟩
    rw [List.foldl_cons]
    rcases List.mem_cons.mp hmem with he | hm
    · subst he
      rw [fold_drivers_preserve l' hn]
      rw [transferDriversStep_drivers,
        if_neg (fun hE => hne (List.isEmpty_iff.mp hE)), List.filter_append]
      have h1 : (acc.1.drivers.filter (fun d => d.data_path != weightPath name)).filter
          (fun d => d.data_path == weightPath name) = [] := by
        rw [List.filter_filter, List.filter_eq_nil_iff]
        intro d _ hb
        rw [Bool.and_eq_true] at hb
        exact (bne_iff_ne.mp hb.2) (eq_of_beq hb.1)
      have h2 : ((src.drivers.filter (fun d => d.data_path == weightPath name)).map
            (copyDriver name)).filter (fun d => d.data_path == weightPath name)
          = (src.drivers.filter (fun d => d.data_path == weightPath name)).map
            (copyDriver name) := by
        rw [List.filter_eq_self]
        intro d hd
        obtain ⟨sd, _, hsd⟩ := List.mem_map.mp hd
        rw [← hsd]
        exact beq_self_eq_true (weightPath name)
      rw [h1, h2, List.nil_append]
    · exact ih hnd' (transferDriversStep src acc n) name hm hne

theorem fold_drivers_untouched (src : MeshObject) :
    ∀ (l : List String) (acc : MeshObject × Nat),
      (l.foldl (transferDriversStep src) acc).1.drivers.filter
          (fun d => l.all (fun n => d.data_path != weightPath n))
        = acc.1.drivers.filter (fun d => l.all (fun n => d.data_path != weightPath n)) := by
  intro l
  induction l with
  | nil => intro acc; rfl
  | cons n l' ih =>
    intro acc
    rw [List.foldl_cons]
    have hpred : ∀ (X : List FDriver),
        X.filter (fun d => (n :: l').all (fun m => d.data_path != weightPath m))
          = (X.filter (fun d => l'.all (fun m => d.data_path != weightPath m))).filter
              (fun d => d.data_path != weightPath n) := by
      intro X
      rw [List.filter_filter]
      apply List.filter_congr
      intro d _
      rw [List.all_cons]
    rw [hpred, hpred, ih (transferDriversStep src acc n), transferDriversStep_drivers]
    by_cases he : (src.drivers.filter (fun d => d.data_path == weightPath n)).isEmpty = true
    · rw [if_pos he]
    · rw [if_neg he, List.filter_append, List.filter_append]
      have hcop : (((src.drivers.filter (fun d => d.data_path == weightPath n)).map
            (copyDriver n)).filter
              (fun d => l'.all (fun m => d.data_path != weightPath m))).filter
            (fun d => d.data_path != weightPath n) = [] := by
        rw [List.filter_filter, List.filter_eq_nil_iff]
        intro d hd hb
        obtain ⟨sd, _, hsd⟩ := List.mem_map.mp hd
        rw [Bool.and_eq_true] at hb
        exact (bne_iff_ne.mp hb.1) (by rw [← hsd]; rfl)
      have hfst : ((acc.1.drivers.filter (fun d => d.data_path != weightPath n)).filter
            (fun d => l'.all (fun m => d.data_path != weightPath m))).filter
            (fun d => d.data_path != weightPath n)
          = (acc.1.drivers.filter
              (fun d => l'.all (fun m => d.data_path != weightPath m))).filter
            (fun d => d.data_path != weightPath n) := by
        simp only [List.filter_filter]
        apply List.filter_congr
        intro d _
        cases h1 : (d.data_path != weightPath n) <;>
          cases h2 : l'.all (fun m => d.data_path != weightPath m) <;> rfl
      rw [hcop, hfst, List.append_nil]

/-- Claim C7: after `transferDrivers`, every matching channel name with at
least one source driver on its weight path carries on the target exactly the
drivers copied from the source (pre-existing target drivers on that path are
removed, never merged), while drivers addressing non-matching paths are left
untouched. -/
theorem C7_driver_replace_semantics (src tgt : MeshObject) :
    (∀ name ∈ matchingNames src tgt,
      src.drivers.filter (fun d => d.data_path == weightPath name) ≠ [] →
      (transferDrivers src tgt).1.drivers.filter
          (fun d => d.data_path == weightPath name)
        = (src.drivers.filter (fun d => d.data_path == weightPath name)).map
            (copyDriver name))
    ∧ (transferDrivers src tgt).1.drivers.filter
          (fun d => (matchingNames src tgt).all (fun n => d.data_path != weightPath n))
        = tgt.drivers.filter
          (fun d => (matchingNames src tgt).all (fun n => d.data_path != weightPath n)) := by
  cases hs : src.shape_keys with
  | none =>
    have hm : matchingNames src tgt = [] := by
      simp [matchingNames, keyBlocks, hs]
    have hres : (transferDrivers src tgt).1 = tgt := by
      simp [transferDrivers, hs]
    constructor
    · intro name hmem
      rw [hm] at hmem
      exact absurd hmem (List.not_mem_nil name)
    · rw [hres]
  | some sks =>
    cases ht : tgt.shape_keys with
    | none =>
      have hm : matchingNames src tgt = [] := by
        rw [matchingNames, List.filter_eq_nil_iff]
        intro n _
        simp [keyBlocks, ht]
      have hres : (transferDrivers src tgt).1 = tgt := by
        simp [transferDrivers, hs, ht]
      constructor
      · intro name hmem
        rw [hm] at hmem
        exact absurd hmem (List.not_mem_nil name)
      · rw [hres]
    | some tks =>
      by_cases hm : (matchingNames src tgt).isEmpty = true
      · have hml := List.isEmpty_iff.mp hm
        have hres : (transferDrivers src tgt).1 = tgt := by
          simp [transferDrivers, hs, ht, hm]
        constructor
        · intro name hmem
          rw [hml] at hmem
          exact absurd hmem (List.not_mem_nil name)
        · rw [hres]
      · have hres : (transferDrivers src tgt).1
            = ((matchingNames src tgt).foldl (transferDriversStep src) (tgt, 0)).1 := by
          simp [transferDrivers, hs, ht, hm]
        have hnd : (matchingNames src tgt).Nodup :=
          List.Nodup.filter _ (List.nodup_dedup _)
        constructor
        · intro name hmem hne
          rw [hres]
          exact fold_drivers_replaced src (matchingNames src tgt) hnd (tgt, 0) name hmem hne
        · rw [hres]
          exact fold_drivers_untouched src (matchingNames src tgt) (tgt, 0)

/-- Witness for C7 at a concrete driver transfer: the target's `"A"` weight
path carries exactly the copy of the source driver. -/
theorem C7_driver_replace_semantics_witness :
    (transferDrivers exSrcDrv exTgtDrv).1.drivers.filter
        (fun d => d.data_path == weightPath "A")
      = (exSrcDrv.drivers.filter (fun d => d.data_path == weightPath "A")).map
          (copyDriver "A") :=
  (C7_driver_replace_semantics exSrcDrv exTgtDrv).1 "A" (by decide) (by decide)

/-! Basis-preservation machinery. -/

theorem vec3_add_v3zero (a : Vec3) : a + v3zero = a := by
  cases a with
  | mk x y z =>
    show Vec3.mk (x + 0) (y + 0) (z + 0) = Vec3.mk x y z
    simp

theorem set_getD_self (d : List Vec3) (i : Nat) : d.set i (d.getD i v3zero) = d := by
  by_cases h : i < d.length
  · apply List.ext_getElem?
    intro j
    by_cases hj : i = j
    · subst hj
      rw [List.getElem?_set_self h, List.getD_eq_getElem?_getD, List.getElem?_eq_getElem h]
      rfl
    · rw [List.getElem?_set_ne hj]
  · rw [List.set_eq_of_length_le (Nat.le_of_not_lt h)]

theorem transferData_basis_self {props : TransferProps} {src : MeshObject}
    {source_key : KeyBlock}
    (hsk : findKey (keyBlocks src) "Basis" = some source_key)
    (n : Nat) (ks : List KeyBlock) :
    transferData props src source_key "Basis" n ks = ks := by
  have hstep : ∀ (ks' : List KeyBlock) (i : Nat),
      writeVertex src source_key "Basis" ks' i = ks' := by
    intro ks' i
    show updateKey ks' "Basis" (fun k => { k with data := k.data.set i (getCoL ks' "Basis" i + (source_key.data.getD i v3zero - getCoL (keyBlocks src) "Basis" i)) }) = ks'
    apply updateKey_eq_self
    intro k0 hk0
    have hbasis : getCoL ks' "Basis" i = k0.data.getD i v3zero := by
      rw [getCoL, getData_of_findKey hk0]
    have hdelta : source_key.data.getD i v3zero - getCoL (keyBlocks src) "Basis" i
        = v3zero := by
      rw [getCoL, getData_of_findKey hsk, vec3_sub_self]
    show { k0 with data := k0.data.set i (getCoL ks' "Basis" i + (source_key.data.getD i v3zero - getCoL (keyBlocks src) "Basis" i)) } = k0
    rw [hbasis, hdelta, vec3_add_v3zero, set_getD_self]
  rw [transferData]
  generalize List.range n = l
  induction l generalizing ks with
  | nil => rfl
  | cons i l' ih =>
    rw [List.foldl_cons]
    by_cases hskip : (props.only_selected_vertices
        && !((selectedIndices src).contains i)) = true
    · rw [if_pos hskip]
      exact ih ks
    · rw [if_neg hskip, hstep ks i]
      exact ih ks

theorem findKey_setKeyValue_ne (o : MeshObject) {n m : String} (v : Int)
    (hm : m ≠ n) :
    findKey (keyBlocks (setKeyValue o n v)) m = findKey (keyBlocks o) m := by
  cases hsk : o.shape_keys with
  | none => simp [setKeyValue, mapKeys, keyBlocks, hsk]
  | some ks =>
    rw [setKeyValue, keyBlocks_of_some (shape_keys_mapKeys hsk _), keyBlocks_of_some hsk]
    exact findKey_updateValue_ne ks v hm

theorem findKey_basis_ensureChannel {o : MeshObject} {n : String} (hn : n ≠ "Basis") :
    findKey (keyBlocks (ensureChannel o n)) "Basis" = findKey (keyBlocks o) "Basis" := by
  by_cases h : hasKey (keyBlocks o) n = true
  · rw [ensureChannel_of_has h]
  · rw [ensureChannel_of_not h, keyBlocks_shape_key_add]
    cases hb : findKey (keyBlocks o) "Basis" with
    | some k => rw [findKey_append_of_isSome (by rw [hb]; rfl), hb]
    | none =>
      rw [findKey_append_of_none hb, findKey, if_neg (by simp [hn]), findKey]

theorem findKey_mapKeys_transferData_basis {props : TransferProps} {src : MeshObject}
    {sk : KeyBlock} {name : String} (hname : name ≠ "Basis") (n : Nat)
    (o : MeshObject) :
    findKey (keyBlocks (mapKeys o (transferData props src sk name n))) "Basis"
      = findKey (keyBlocks o) "Basis" := by
  cases hsk : o.shape_keys with
  | none => simp [mapKeys, keyBlocks, hsk]
  | some ks =>
    rw [keyBlocks_of_some (shape_keys_mapKeys hsk _), keyBlocks_of_some hsk]
    exact transferData_findKey_ne hname (fun e => hname e.symm) n ks

theorem findKey_basis_transferAllStep (props : TransferProps) (src : MeshObject)
    (acc : MeshObject × Nat) (sk : KeyBlock) :
    findKey (keyBlocks (transferAllStep props src acc sk).1) "Basis"
      = findKey (keyBlocks acc.1) "Basis" := by
  rw [transferAllStep]
  by_cases hn : (sk.name == "Basis") = true
  · rw [if_pos hn]
  · rw [if_neg hn]
    have hname : sk.name ≠ "Basis" := fun e => hn (by rw [e]; exact beq_self_eq_true _)
    have hnb : ("Basis" : String) ≠ sk.name := fun e => hname e.symm
    cases hm : props.transfer_mode with
    | FULL =>
      show findKey (keyBlocks (setKeyValue (mapKeys (ensureChannel acc.1 sk.name) (transferData props src sk sk.name (ensureChannel acc.1 sk.name).vertices.length)) sk.name sk.value)) "Basis" = findKey (keyBlocks acc.1) "Basis"
      rw [findKey_setKeyValue_ne _ _ hnb, findKey_mapKeys_transferData_basis hname,
        findKey_basis_ensureChannel hname]
    | NAMES_ONLY =>
      show findKey (keyBlocks (setKeyValue (ensureChannel acc.1 sk.name) sk.name sk.value)) "Basis" = findKey (keyBlocks acc.1) "Basis"
      rw [findKey_setKeyValue_ne _ _ hnb, findKey_basis_ensureChannel hname]

theorem fold_bulk_basis (props : TransferProps) (src : MeshObject) (l : List KeyBlock) :
    ∀ acc : MeshObject × Nat,
      findKey (keyBlocks (l.foldl (transferAllStep props src) acc).1) "Basis"
        = findKey (keyBlocks acc.1) "Basis" := by
  induction l with
  | nil => intro acc; rfl
  | cons k l' ih =>
    intro acc
    rw [List.foldl_cons, ih, findKey_basis_transferAllStep]

/-- Claim C8 counterexample: invoking the single-channel transfer with
`shape_key_name = "Basis"` succeeds and copies the source Basis weight onto the
target Basis block, so the target's Basis weight changes from 0 to 1. -/
theorem C8_basis_weight_counterexample :
    (transferShapeKey propsFull exSrcBasisW exTgtBasisW "Basis").2 = Except.ok ()
      ∧ getValue exTgtBasisW "Basis" = some 0
      ∧ getValue (transferShapeKey propsFull exSrcBasisW exTgtBasisW "Basis").1 "Basis"
          = some 1 := by
  decide

/-- Claim C8 (amended): bulk transfer and driver transfer never process
`"Basis"` and leave the target's Basis block (positions and weight)
unchanged; the single-channel transfer leaves the Basis block unchanged
whenever it is invoked on a non-basis channel name, and even when invoked
with name `"Basis"` it leaves the Basis positions unchanged — but it then
copies the source's Basis weight onto the target's Basis weight. -/
theorem C8_basis_never_transferred_amended (props : TransferProps)
    (src tgt : MeshObject) (name : String) :
    (hasKey (keyBlocks tgt) "Basis" = true →
      findKey (keyBlocks (transferAllShapeKeys props src tgt).1) "Basis"
        = findKey (keyBlocks tgt) "Basis")
    ∧ (hasKey (keyBlocks tgt) "Basis" = true → name ≠ "Basis" →
      findKey (keyBlocks (transferShapeKey props src tgt name).1) "Basis"
        = findKey (keyBlocks tgt) "Basis")
    ∧ (hasKey (keyBlocks tgt) "Basis" = true →
      getData (keyBlocks (transferShapeKey props src tgt "Basis").1) "Basis"
        = getData (keyBlocks tgt) "Basis")
    ∧ "Basis" ∉ matchingNames src tgt
    ∧ (transferDrivers src tgt).1.shape_keys = tgt.shape_keys := by
  refine ⟨?_, ?_, ?_, ?_, ?_⟩
  · -- bulk transfer
    intro hb
    obtain ⟨ks, hks⟩ : ∃ ks, tgt.shape_keys = some ks := by
      cases h : tgt.shape_keys with
      | none => rw [keyBlocks, h] at hb; simp [hasKey, findKey] at hb
      | some ks => exact ⟨ks, rfl⟩
    cases hsks : src.shape_keys with
    | none =>
      have hres : (transferAllShapeKeys props src tgt).1 = tgt := by
        simp [transferAllShapeKeys, hsks]
      rw [hres]
    | some sks =>
      by_cases hcond : (props.transfer_mode = TransferMode.FULL
          ∧ tgt.vertices.length ≠ src.vertices.length)
      · have hres : (transferAllShapeKeys props src tgt).1 = tgt := by
          simp [transferAllShapeKeys, hsks, hcond]
        rw [hres]
      · have hres : (transferAllShapeKeys props src tgt).1
            = ((keyBlocks src).foldl (transferAllStep props src) (ensureBasis tgt, 0)).1 := by
          simp [transferAllShapeKeys, hsks, hcond]
        rw [hres, fold_bulk_basis, ensureBasis_of_some hks]
  · -- single transfer, non-basis name
    intro hb hname
    obtain ⟨ks, hks⟩ : ∃ ks, tgt.shape_keys = some ks := by
      cases h : tgt.shape_keys with
      | none => rw [keyBlocks, h] at hb; simp [hasKey, findKey] at hb
      | some ks => exact ⟨ks, rfl⟩
    have hnb : ("Basis" : String) ≠ name := fun e => hname e.symm
    cases hsks : src.shape_keys with
    | none =>
      have hres : (transferShapeKey props src tgt name).1 = tgt := by
        simp [transferShapeKey, hsks]
      rw [hres]
    | some sks =>
      cases hfound : findKey (keyBlocks src) name with
      | none =>
        have hres : (transferShapeKey props src tgt name).1 = tgt := by
          simp [transferShapeKey, hsks, hfound]
        rw [hres]
      | some source_key =>
        cases hmode' : props.transfer_mode with
        | FULL =>
          by_cases hcnt : tgt.vertices.length = src.vertices.length
          · rw [transferShapeKey_full_ok hsks hfound hmode' tgt hcnt]
            show findKey (keyBlocks (setKeyValue (mapKeys (ensureChannel (ensureBasis tgt) name) (transferData props src source_key name tgt.vertices.length)) name source_key.value)) "Basis" = findKey (keyBlocks tgt) "Basis"
            rw [findKey_setKeyValue_ne _ _ hnb, findKey_mapKeys_transferData_basis hname,
              ensureBasis_of_some hks, findKey_basis_ensureChannel hname]
          · rw [transferShapeKey_full_mismatch hsks hfound hmode' tgt hcnt]
            show findKey (keyBlocks (ensureChannel (ensureBasis tgt) name)) "Basis"
              = findKey (keyBlocks tgt) "Basis"
            rw [ensureBasis_of_some hks, findKey_basis_ensureChannel hname]
        | NAMES_ONLY =>
          rw [transferShapeKey_names_ok hsks hfound hmode' tgt]
          show findKey (keyBlocks (setKeyValue (ensureChannel (ensureBasis tgt) name) name source_key.value)) "Basis" = findKey (keyBlocks tgt) "Basis"
          rw [findKey_setKeyValue_ne _ _ hnb, ensureBasis_of_some hks,
            findKey_basis_ensureChannel hname]
  · -- single transfer invoked on "Basis": positions unchanged
    intro hb
    obtain ⟨ks, hks⟩ : ∃ ks, tgt.shape_keys = some ks := by
      cases h : tgt.shape_keys with
      | none => rw [keyBlocks, h] at hb; simp [hasKey, findKey] at hb
      | some ks => exact ⟨ks, rfl⟩
    have htgt1 : ensureChannel (ensureBasis tgt) "Basis" = tgt := by
      rw [ensureBasis_of_some hks]
      exact ensureChannel_of_has hb
    cases hsks : src.shape_keys with
    | none =>
      have hres : (transferShapeKey props src tgt "Basis").1 = tgt := by
        simp [transferShapeKey, hsks]
      rw [hres]
    | some sks =>
      cases hfound : findKey (keyBlocks src) "Basis" with
      | none =>
        have hres : (transferShapeKey props src tgt "Basis").1 = tgt := by
          simp [transferShapeKey, hsks, hfound]
        rw [hres]
      | some source_key =>
        cases hmode' : props.transfer_mode with
        | FULL =>
          by_cases hcnt : tgt.vertices.length = src.vertices.length
          · rw [transferShapeKey_full_ok hsks hfound hmode' tgt hcnt]
            show getData (keyBlocks (setKeyValue (mapKeys (ensureChannel (ensureBasis tgt) "Basis") (transferData props src source_key "Basis" tgt.vertices.length)) "Basis" source_key.value)) "Basis" = getData (keyBlocks tgt) "Basis"
            rw [getData_setKeyValue, htgt1,
              keyBlocks_of_some (shape_keys_mapKeys hks _),
              transferData_basis_self hfound, keyBlocks_of_some hks]
          · rw [transferShapeKey_full_mismatch hsks hfound hmode' tgt hcnt]
            show getData (keyBlocks (ensureChannel (ensureBasis tgt) "Basis")) "Basis"
              = getData (keyBlocks tgt) "Basis"
            rw [htgt1]
        | NAMES_ONLY =>
          rw [transferShapeKey_names_ok hsks hfound hmode' tgt]
          show getData (keyBlocks (setKeyValue (ensureChannel (ensureBasis tgt) "Basis") "Basis" source_key.value)) "Basis" = getData (keyBlocks tgt) "Basis"
          rw [getData_setKeyValue, htgt1]
  · -- driver transfer never considers "Basis"
    intro hmem
    simp only [matchingNames] at hmem
    rcases List.mem_filter.mp hmem with ⟨h1, _⟩
    rcases List.mem_filter.mp (List.mem_dedup.mp h1) with ⟨_, h2⟩
    exact (bne_iff_ne.mp h2) rfl
  · -- driver transfer does not touch shape keys at all
    cases hs : src.shape_keys with
    | none => simp [transferDrivers, hs]
    | some sks =>
      cases ht : tgt.shape_keys with
      | none => simp [transferDrivers, hs, ht]
      | some tks =>
        by_cases hm : (matchingNames src tgt).isEmpty = true
        · simp [transferDrivers, hs, ht, hm]
        · have hres : (transferDrivers src tgt).1
              = ((matchingNames src tgt).foldl (transferDriversStep src) (tgt, 0)).1 := by
            simp [transferDrivers, hs, ht, hm]
          rw [hres, fold_drivers_shape_keys]
          exact ht

/-- Witness for the amended C8: a FULL transfer of channel `"A"` leaves the
target's Basis block untouched. -/
theorem C8_basis_never_transferred_amended_witness :
    findKey (keyBlocks (transferShapeKey propsFull exSrc exTgtPre "A").1) "Basis"
      = findKey (keyBlocks exTgtPre) "Basis" :=
  (C8_basis_never_transferred_amended propsFull exSrc exTgtPre "A").2.1
    (by decide) (by decide)

/-! Step-level facts about the bulk-transfer loop body. -/

theorem vertices_transferAllStep (props : TransferProps) (src : MeshObject)
    (acc : MeshObject × Nat) (sk : KeyBlock) :
    (transferAllStep props src acc sk).1.vertices = acc.1.vertices := by
  rw [transferAllStep]
  by_cases hn : (sk.name == "Basis") = true
  · rw [if_pos hn]
  · rw [if_neg hn]
    cases hm : props.transfer_mode with
    | FULL =>
      show (setKeyValue (mapKeys (ensureChannel acc.1 sk.name) (transferData props src sk sk.name (ensureChannel acc.1 sk.name).vertices.length)) sk.name sk.value).vertices = acc.1.vertices
      rw [vertices_setKeyValue, vertices_mapKeys, vertices_ensureChannel]
    | NAMES_ONLY =>
      show (setKeyValue (ensureChannel acc.1 sk.name) sk.name sk.value).vertices
        = acc.1.vertices
      rw [vertices_setKeyValue, vertices_ensureChannel]

theorem shape_keys_mapKeys_isSome (o : MeshObject) (f : List KeyBlock → List KeyBlock) :
    (mapKeys o f).shape_keys.isSome = o.shape_keys.isSome := by
  show (o.shape_keys.map f).isSome = o.shape_keys.isSome
  cases o.shape_keys <;> rfl

theorem shape_keys_transferAllStep_isSome (props : TransferProps) (src : MeshObject)
    (acc : MeshObject × Nat) (sk : KeyBlock)
    (h : acc.1.shape_keys.isSome = true) :
    (transferAllStep props src acc sk).1.shape_keys.isSome = true := by
  rw [transferAllStep]
  by_cases hn : (sk.name == "Basis") = true
  · rw [if_pos hn]; exact h
  · rw [if_neg hn]
    cases hm : props.transfer_mode with
    | FULL =>
      show (setKeyValue (mapKeys (ensureChannel acc.1 sk.name) (transferData props src sk sk.name (ensureChannel acc.1 sk.name).vertices.length)) sk.name sk.value).shape_keys.isSome = true
      rw [setKeyValue, shape_keys_mapKeys_isSome, shape_keys_mapKeys_isSome]
      exact shape_keys_ensureChannel_isSome sk.name h
    | NAMES_ONLY =>
      show (setKeyValue (ensureChannel acc.1 sk.name) sk.name sk.value).shape_keys.isSome
        = true
      rw [setKeyValue, shape_keys_mapKeys_isSome]
      exact shape_keys_ensureChannel_isSome sk.name h

theorem findKey_ensureChannel_ne {o : MeshObject} {n m : String} (hm : m ≠ n) :
    findKey (keyBlocks (ensureChannel o n)) m = findKey (keyBlocks o) m := by
  by_cases h : hasKey (keyBlocks o) n = true
  · rw [ensureChannel_of_has h]
  · rw [ensureChannel_of_not h, keyBlocks_shape_key_add]
    cases hb : findKey (keyBlocks o) m with
    | some k => rw [findKey_append_of_isSome (by rw [hb]; rfl), hb]
    | none =>
      rw [findKey_append_of_none hb, findKey, if_neg (by simp [Ne.symm hm]), findKey]

theorem findKey_mapKeys_transferData_ne {props : TransferProps} {src : MeshObject}
    {sk : KeyBlock} {name m : String} (hname : name ≠ "Basis") (hm : m ≠ name)
    (n : Nat) (o : MeshObject) :
    findKey (keyBlocks (mapKeys o (transferData props src sk name n))) m
      = findKey (keyBlocks o) m := by
  cases hsk : o.shape_keys with
  | none => simp [mapKeys, keyBlocks, hsk]
  | some ks =>
    rw [keyBlocks_of_some (shape_keys_mapKeys hsk _), keyBlocks_of_some hsk]
    exact transferData_findKey_ne hname hm n ks

theorem findKey_transferAllStep_ne (props : TransferProps) (src : MeshObject)
    (acc : MeshObject × Nat) (sk : KeyBlock) {m : String} (hm : m ≠ sk.name) :
    findKey (keyBlocks (transferAllStep props src acc sk).1) m
      = findKey (keyBlocks acc.1) m := by
  rw [transferAllStep]
  by_cases hn : (sk.name == "Basis") = true
  · rw [if_pos hn]
  · rw [if_neg hn]
    have hname : sk.name ≠ "Basis" := fun e => hn (by rw [e]; exact beq_self_eq_true _)
    cases hmode : props.transfer_mode with
    | FULL =>
      show findKey (keyBlocks (setKeyValue (mapKeys (ensureChannel acc.1 sk.name) (transferData props src sk sk.name (ensureChannel acc.1 sk.name).vertices.length)) sk.name sk.value)) m = findKey (keyBlocks acc.1) m
      rw [findKey_setKeyValue_ne _ _ hm, findKey_mapKeys_transferData_ne hname hm,
        findKey_ensureChannel_ne hm]
    | NAMES_ONLY =>
      show findKey (keyBlocks (setKeyValue (ensureChannel acc.1 sk.name) sk.name sk.value)) m = findKey (keyBlocks acc.1) m
      rw [findKey_setKeyValue_ne _ _ hm, findKey_ensureChannel_ne hm]

theorem hasKey_mapKeys_transferData {props : TransferProps} {src : MeshObject}
    {sk : KeyBlock} {name : String} (hname : name ≠ "Basis") (n : Nat)
    (o : MeshObject) (m : String) :
    hasKey (keyBlocks (mapKeys o (transferData props src sk name n))) m
      = hasKey (keyBlocks o) m := by
  by_cases hm : m = name
  · subst hm
    cases hsk : o.shape_keys with
    | none => simp [mapKeys, keyBlocks, hsk]
    | some ks =>
      rw [keyBlocks_of_some (shape_keys_mapKeys hsk _), keyBlocks_of_some hsk,
        hasKey, hasKey, transferData_findKey_self hname]
      cases findKey ks m <;> rfl
  · rw [hasKey, hasKey, findKey_mapKeys_transferData_ne hname hm]

/-! The bulk step establishes, preserves, and is fixed by `bulkDone`. -/

theorem bulkDone_step_preserve {props : TransferProps} {src : MeshObject}
    {k : KeyBlock} {acc : MeshObject × Nat} {sk : KeyBlock}
    (hne : k.name ≠ sk.name) (hb : bulkDone props src k acc.1) :
    bulkDone props src k (transferAllStep props src acc sk).1 := by
  obtain ⟨hk, hdata, hval⟩ := hb
  have hfind : findKey (keyBlocks (transferAllStep props src acc sk).1) k.name
      = findKey (keyBlocks acc.1) k.name :=
    findKey_transferAllStep_ne props src acc sk hne
  have hbasis := findKey_basis_transferAllStep props src acc sk
  have hverts := vertices_transferAllStep props src acc sk
  refine ⟨?_, ?_, ?_⟩
  · rw [hasKey, hfind]
    exact hk
  · intro hmode k0 hk0
    rw [hfind] at hk0
    have hvals : writeVals src k (keyBlocks (transferAllStep props src acc sk).1)
        = writeVals src k (keyBlocks acc.1) := by
      funext j
      have hco : getCoL (keyBlocks (transferAllStep props src acc sk).1) "Basis" j
          = getCoL (keyBlocks acc.1) "Basis" j := by
        rw [getCoL, getCoL, getData, getData, hbasis]
      rw [writeVals, writeVals, hco]
    rw [hvals, hverts]
    exact hdata hmode k0 hk0
  · intro k0 hk0
    rw [hfind] at hk0
    exact hval k0 hk0

theorem bulkDone_step_fst {props : TransferProps} {src : MeshObject} {k : KeyBlock}
    {o : MeshObject} (hn : k.name ≠ "Basis") (hb : bulkDone props src k o) (c : Nat) :
    (transferAllStep props src (o, c) k).1 = o := by
  obtain ⟨hk, hdata, hval⟩ := hb
  obtain ⟨ks, hks⟩ : ∃ ks, o.shape_keys = some ks := by
    cases h : o.shape_keys with
    | none => rw [keyBlocks, h] at hk; simp [hasKey, findKey] at hk
    | some ks => exact ⟨ks, rfl⟩
  have ht1 : ensureChannel o k.name = o := ensureChannel_of_has hk
  rw [transferAllStep, if_neg (by simp [hn])]
  cases hmode : props.transfer_mode with
  | FULL =>
    show setKeyValue (mapKeys (ensureChannel o k.name) (transferData props src k k.name (ensureChannel o k.name).vertices.length)) k.name k.value = o
    rw [ht1]
    have hW : transferData props src k k.name o.vertices.length ks = ks := by
      rw [transferData_collapse props src k hn]
      apply updateKey_eq_self
      intro k0 hk0
      have hd := hdata hmode k0 (by rw [keyBlocks_of_some hks]; exact hk0)
      rw [keyBlocks_of_some hks] at hd
      show { k0 with data := writeFold (includedIdx props src) (writeVals src k ks) o.vertices.length k0.data } = k0
      rw [hd]
    have hmk : mapKeys o (transferData props src k k.name o.vertices.length) = o := by
      rw [mapKeys, hks]
      show { o with shape_keys := some (transferData props src k k.name o.vertices.length ks) } = o
      rw [hW, ← hks]
    rw [hmk, setKeyValue, mapKeys, hks]
    show { o with shape_keys := some (updateKey ks k.name fun k0 => { k0 with value := k.value }) } = o
    rw [updateKey_eq_self (fun k0 hk0 => by
      rw [← hval k0 (by rw [keyBlocks_of_some hks]; exact hk0)]), ← hks]
  | NAMES_ONLY =>
    show setKeyValue (ensureChannel o k.name) k.name k.value = o
    rw [ht1, setKeyValue, mapKeys, hks]
    show { o with shape_keys := some (updateKey ks k.name fun k0 => { k0 with value := k.value }) } = o
    rw [updateKey_eq_self (fun k0 hk0 => by
      rw [← hval k0 (by rw [keyBlocks_of_some hks]; exact hk0)]), ← hks]

theorem bulkDone_step_new {props : TransferProps} {src : MeshObject} {k : KeyBlock}
    (hn : k.name ≠ "Basis") (acc : MeshObject × Nat)
    (hsome : acc.1.shape_keys.isSome = true) :
    bulkDone props src k (transferAllStep props src acc k).1 := by
  rw [transferAllStep, if_neg (by simp [hn])]
  have ht1some : (ensureChannel acc.1 k.name).shape_keys.isSome = true :=
    shape_keys_ensureChannel_isSome k.name hsome
  obtain ⟨ks1, hks1⟩ := Option.isSome_iff_exists.mp ht1some
  have hhk1 : hasKey ks1 k.name = true := by
    have hh := hasKey_ensureChannel_self acc.1 k.name
    rw [keyBlocks_of_some hks1] at hh
    exact hh
  obtain ⟨k1, hk1⟩ := Option.isSome_iff_exists.mp hhk1
  cases hmode : props.transfer_mode with
  | NAMES_ONLY =>
    show bulkDone props src k (setKeyValue (ensureChannel acc.1 k.name) k.name k.value)
    refine ⟨?_, ?_, ?_⟩
    · rw [hasKey_setKeyValue]
      exact hasKey_ensureChannel_self acc.1 k.name
    · intro hmode'
      rw [hmode] at hmode'
      exact absurd hmode' (by simp)
    · intro k0 hk0
      rw [setKeyValue, keyBlocks_of_some (shape_keys_mapKeys hks1 _),
        findKey_updateValue_self, hk1, Option.map_some', Option.some_inj] at hk0
      rw [← hk0]
  | FULL =>
    show bulkDone props src k (setKeyValue (mapKeys (ensureChannel acc.1 k.name) (transferData props src k k.name (ensureChannel acc.1 k.name).vertices.length)) k.name k.value)
    have hks2 := shape_keys_mapKeys hks1
      (transferData props src k k.name (ensureChannel acc.1 k.name).vertices.length)
    refine ⟨?_, ?_, ?_⟩
    · rw [hasKey_setKeyValue, hasKey_mapKeys_transferData hn]
      exact hasKey_ensureChannel_self acc.1 k.name
    · intro _ k0 hk0
      rw [setKeyValue, keyBlocks_of_some (shape_keys_mapKeys hks2 _),
        findKey_updateValue_self, transferData_findKey_self hn, hk1,
        Option.map_some', Option.map_some', Option.some_inj] at hk0
      have hbasis : getData (keyBlocks (setKeyValue (mapKeys (ensureChannel acc.1 k.name) (transferData props src k k.name (ensureChannel acc.1 k.name).vertices.length)) k.name k.value)) "Basis" = getData ks1 "Basis" := by
        rw [getData_setKeyValue, keyBlocks_of_some hks2, getData_transferData_basis hn]
      have hvals : writeVals src k (keyBlocks (setKeyValue (mapKeys (ensureChannel acc.1 k.name) (transferData props src k k.name (ensureChannel acc.1 k.name).vertices.length)) k.name k.value)) = writeVals src k ks1 := by
        funext j
        have hco : getCoL (keyBlocks (setKeyValue (mapKeys (ensureChannel acc.1 k.name) (transferData props src k k.name (ensureChannel acc.1 k.name).vertices.length)) k.name k.value)) "Basis" j = getCoL ks1 "Basis" j := by
          rw [getCoL, getCoL, hbasis]
        rw [writeVals, writeVals, hco]
      have hverts : (setKeyValue (mapKeys (ensureChannel acc.1 k.name) (transferData props src k k.name (ensureChannel acc.1 k.name).vertices.length)) k.name k.value).vertices.length = (ensureChannel acc.1 k.name).vertices.length := by
        rw [vertices_setKeyValue, vertices_mapKeys]
      rw [hvals, hverts, ← hk0]
      exact writeFold_idem (includedIdx props src) (writeVals src k ks1)
        (ensureChannel acc.1 k.name).vertices.length k1.data
    · intro k0 hk0
      rw [setKeyValue, keyBlocks_of_some (shape_keys_mapKeys hks2 _),
        findKey_updateValue_self, transferData_findKey_self hn, hk1,
        Option.map_some', Option.map_some', Option.some_inj] at hk0
      rw [← hk0]

/-! Fold-level facts for the bulk transfer. -/

theorem vertices_fold_transferAllStep (props : TransferProps) (src : MeshObject)
    (l : List KeyBlock) :
    ∀ acc : MeshObject × Nat,
      (l.foldl (transferAllStep props src) acc).1.vertices = acc.1.vertices := by
  induction l with
  | nil => intro acc; rfl
  | cons k l' ih =>
    intro acc
    rw [List.foldl_cons, ih, vertices_transferAllStep]

theorem shape_keys_fold_isSome (props : TransferProps) (src : MeshObject)
    (l : List KeyBlock) :
    ∀ acc : MeshObject × Nat, acc.1.shape_keys.isSome = true →
      (l.foldl (transferAllStep props src) acc).1.shape_keys.isSome = true := by
  induction l with
  | nil => intro acc h; exact h
  | cons k l' ih =>
    intro acc h
    rw [List.foldl_cons]
    exact ih _ (shape_keys_transferAllStep_isSome props src acc k h)

theorem bulkDone_fold_preserve {props : TransferProps} {src : MeshObject}
    {k : KeyBlock} (l : List KeyBlock) (hl : ∀ sk ∈ l, k.name ≠ sk.name) :
    ∀ acc : MeshObject × Nat, bulkDone props src k acc.1 →
      bulkDone props src k ((l.foldl (transferAllStep props src) acc)).1 := by
  induction l with
  | nil => intro acc hb; exact hb
  | cons sk l' ih =>
    intro acc hb
    rw [List.foldl_cons]
    exact ih (fun x hx => hl x (List.mem_cons_of_mem sk hx)) _
      (bulkDone_step_preserve (hl sk (List.mem_cons_self sk l')) hb)

theorem bulkDone_fold_new {props : TransferProps} {src : MeshObject}
    (l : List KeyBlock) :
    (l.map KeyBlock.name).Nodup →
    ∀ acc : MeshObject × Nat, acc.1.shape_keys.isSome = true →
    ∀ k ∈ l, k.name ≠ "Basis" →
      bulkDone props src k ((l.foldl (transferAllStep props src) acc)).1 := by
  induction l with
  | nil =>
    intro _ acc _ k hk
    exact absurd hk (List.not_mem_nil k)
  | cons a l' ih =>
    intro hnd acc hsome k hk hn
    rw [List.map_cons] at hnd
    rcases List.nodup_cons.mp hnd with ⟨ha, hnd'⟩
    rw [List.foldl_cons]
    rcases List.mem_cons.mp hk with he | hm
    · subst he
      exact bulkDone_fold_preserve l'
        (fun sk hsk e => ha (by rw [e]; exact List.mem_map_of_mem KeyBlock.name hsk))
        _ (bulkDone_step_new hn acc hsome)
    · exact ih hnd' _ (shape_keys_transferAllStep_isSome props src acc a hsome) k hm hn

theorem bulkDone_fold_id {props : TransferProps} {src : MeshObject}
    (l : List KeyBlock) :
    ∀ acc : MeshObject × Nat,
      (∀ k ∈ l, k.name = "Basis" ∨ bulkDone props src k acc.1) →
      (l.foldl (transferAllStep props src) acc).1 = acc.1 := by
  induction l with
  | nil => intro acc _; rfl
  | cons a l' ih =>
    intro acc hall
    rw [List.foldl_cons]
    have hfst : (transferAllStep props src acc a).1 = acc.1 := by
      rcases hall a (List.mem_cons_self a l') with hbasis | hdone
      · rw [transferAllStep, if_pos (by rw [hbasis]; exact beq_self_eq_true _)]
      · by_cases hn : a.name = "Basis"
        · rw [transferAllStep, if_pos (by rw [hn]; exact beq_self_eq_true _)]
        · exact bulkDone_step_fst hn hdone acc.2
    have hrec := ih (transferAllStep props src acc a) (fun k hk => by
      rcases hall k (List.mem_cons_of_mem a hk) with h1 | h2
      · exact Or.inl h1
      · exact Or.inr (by rw [hfst]; exact h2))
    rw [hrec, hfst]

theorem count_fold_transferAllStep (props : TransferProps) (src : MeshObject)
    (l : List KeyBlock) :
    ∀ acc : MeshObject × Nat,
      (l.foldl (transferAllStep props src) acc).2
        = acc.2 + (l.filter (fun k => !(k.name == "Basis"))).length := by
  induction l with
  | nil => intro acc; rfl
  | cons a l' ih =>
    intro acc
    rw [List.foldl_cons, ih]
    by_cases hn : (a.name == "Basis") = true
    · have hstep : transferAllStep props src acc a = acc := by
        rw [transferAllStep, if_pos hn]
      rw [hstep]
      simp [List.filter_cons, hn]
    · have hsnd : (transferAllStep props src acc a).2 = acc.2 + 1 := by
        rw [transferAllStep, if_neg hn]
      rw [hsnd]
      simp [List.filter_cons, hn]
      omega

/-- Claim C4: bulk transfer is idempotent — running `transferAllShapeKeys`
twice with the source unchanged returns exactly the result of running it once
(same channel set, positions and weights, no duplicates, no cumulative
deltas), given the data-model invariant that source channel names are unique. -/
theorem C4_bulk_transfer_idempotent (props : TransferProps) (src tgt : MeshObject)
    (hnodup : ((keyBlocks src).map KeyBlock.name).Nodup) :
    transferAllShapeKeys props src ((transferAllShapeKeys props src tgt).1)
      = transferAllShapeKeys props src tgt := by
  cases hsks : src.shape_keys with
  | none => simp [transferAllShapeKeys, hsks]
  | some sks =>
    by_cases hcond : props.transfer_mode = TransferMode.FULL
        ∧ tgt.vertices.length ≠ src.vertices.length
    · simp [transferAllShapeKeys, hsks, hcond]
    · have hform : ∀ t : MeshObject,
          ¬(props.transfer_mode = TransferMode.FULL
            ∧ t.vertices.length ≠ src.vertices.length) →
          transferAllShapeKeys props src t
            = (((keyBlocks src).foldl (transferAllStep props src) (ensureBasis t, 0)).1,
              Except.ok
                ((keyBlocks src).foldl (transferAllStep props src) (ensureBasis t, 0)).2) := by
        intro t hc
        simp [transferAllShapeKeys, hsks, hc]
      rw [hform tgt hcond]
      set S := (keyBlocks src).foldl (transferAllStep props src) (ensureBasis tgt, 0) with hS
      have hverts : S.1.vertices = tgt.vertices := by
        rw [hS, vertices_fold_transferAllStep]
        exact vertices_ensureBasis tgt
      have hsome : S.1.shape_keys.isSome = true := by
        rw [hS]
        exact shape_keys_fold_isSome props src (keyBlocks src) (ensureBasis tgt, 0)
          (shape_keys_ensureBasis_isSome tgt)
      obtain ⟨S1ks, hS1ks⟩ := Option.isSome_iff_exists.mp hsome
      have hcond2 : ¬(props.transfer_mode = TransferMode.FULL
          ∧ S.1.vertices.length ≠ src.vertices.length) := by
        rw [hverts]
        exact hcond
      rw [hform S.1 hcond2, ensureBasis_of_some hS1ks]
      have hdone : ∀ k ∈ keyBlocks src, k.name = "Basis" ∨ bulkDone props src k S.1 := by
        intro k hk
        by_cases hn : k.name = "Basis"
        · exact Or.inl hn
        · refine Or.inr ?_
          rw [hS]
          exact bulkDone_fold_new (keyBlocks src) hnodup (ensureBasis tgt, 0)
            (shape_keys_ensureBasis_isSome tgt) k hk hn
      have hfst : ((keyBlocks src).foldl (transferAllStep props src) (S.1, 0)).1 = S.1 :=
        bulkDone_fold_id (keyBlocks src) (S.1, 0) hdone
      have hsnd : ((keyBlocks src).foldl (transferAllStep props src) (S.1, 0)).2
          = ((keyBlocks src).filter (fun k => !(k.name == "Basis"))).length := by
        rw [count_fold_transferAllStep]
        exact Nat.zero_add _
      have hsnd1 : S.2 = ((keyBlocks src).filter (fun k => !(k.name == "Basis"))).length := by
        rw [hS, count_fold_transferAllStep]
        exact Nat.zero_add _
      rw [hfst, hsnd, hsnd1]

/-- Witness for C4 at a concrete bulk transfer. -/
theorem C4_bulk_transfer_idempotent_witness :
    transferAllShapeKeys propsFull exSrc (transferAllShapeKeys propsFull exSrc exTgt).1
      = transferAllShapeKeys propsFull exSrc exTgt :=
  C4_bulk_transfer_idempotent propsFull exSrc exTgt (by decide)
